import Mathlib

/-!
# HackBrowserData: record assembly in `browsingdata.go`

A shallow embedding of the Webkit `parse` methods and of `getBookmarkChildren`
of `src/browsingdata.go`, and a model of the Gecko master-key chain, which the
file declares (`type GeckoPassword []loginData`) but does not implement.

The Go code is glue around collaborators that live outside the file
(`database/sql`, `internal/decrypt`, `utils`, `gjson`, the wall clock and the
standard output).  Each collaborator is a parameter of the embedding; every
effect the code performs on one of them (a decryptor call, a printed
diagnostic) is appended to a trace, in program order.
-/

namespace HackBrowserData

/-! ## Basic types -/

/-- A Go `error` value, identified with its message. -/
abbrev Error := String

/-- A Go `[]byte`; `nil` and the empty slice both have length 0. -/
abbrev Bytes := List Nat

/-- A Go `time.Time`, as an instant. -/
structure Time where
  unixNano : Int
deriving DecidableEq, Repr

/-- Zero value of `time.Time`. -/
def Time.zero : Time := ⟨0⟩

/-- Go conversion `string(b)` of a byte slice: one character per byte. -/
def goString (b : Bytes) : String := String.mk (b.map Char.ofNat)

/-- Effects of the parse functions, in program order. -/
inductive Event where
  /-- The call `log.Println(err)`. -/
  | logPrintln (e : Error)
  /-- The call `fmt.Println(err)`. -/
  | fmtPrintln (e : Error)
  /-- The call `fmt.Printf("%s have empty password %s\n", login.LoginUrl, err.Error())`. -/
  | fmtPrintf (loginUrl : String) (e : Error)
  /-- The call `decrypt.DPAPI(ct)`. -/
  | callDPAPI (ct : Bytes)
  /-- The call `decrypt.ChromePass(key, ct)`. -/
  | callChromePass (key ct : Bytes)
deriving DecidableEq, Repr

/-- Events that are printed diagnostics. -/
def Event.isDiagnostic : Event → Bool
  | .logPrintln _ => true
  | .fmtPrintln _ => true
  | .fmtPrintf _ _ => true
  | .callDPAPI _ => false
  | .callChromePass _ _ => false

/-- Events that are decryptor calls. -/
def Event.isDecryptCall : Event → Bool
  | .callDPAPI _ => true
  | .callChromePass _ _ => true
  | _ => false

/-! ## Collaborators -/

/-- Modelled from the spec: package `internal/decrypt` is not under `src/`.
Section 4.5 gives the field decryptor the contract
`ciphertext -> plaintext | DecryptError`; a Go call
`value, err = decrypt.F(..)` therefore binds either a plaintext and a nil
error, or a nil slice and the error. -/
structure Decrypt where
  DPAPI : Bytes → Except Error Bytes
  ChromePass : Bytes → Bytes → Except Error Bytes

/-- Package `utils` is not under `src/`; its functions are parameters. -/
structure Utils where
  TimeEpochFormat : Int → Time
  TimeStampFormat : Int → Time
  IntToBool : Int → Bool
  ReadFile : String → Except Error String

/-- Go multiple assignment `value, err = f(..)` for a decryptor result. -/
def assignResult (r : Except Error Bytes) : Bytes × Option Error :=
  match r with
  | .ok v => (v, none)
  | .error e => ([], some e)

/-- Outcome of `sql.Open` followed by `Query` on the opened handle. -/
inductive DB (Row : Type) where
  | openFails (e : Error)
  | queryFails (e : Error)
  | rows (rs : List Row)

/-- Outcome of converting one fetched column into its destination variable
(`database/sql` `convertAssign`): the converted value, or the error. -/
abbrev Cell (α : Type) := Except Error α

/-- One step of `rows.Scan`: columns are assigned left to right; the first
failing column stops the scan, leaving it and all later destinations at their
zero value `zero`. -/
def scanCol {α : Type} (zero : α) (c : Cell α) (err : Option Error) : α × Option Error :=
  match err with
  | some e => (zero, some e)
  | none =>
    match c with
    | .ok v => (v, none)
    | .error e => (zero, some e)

/-- State of a parse loop: the collection behind the receiver pointer, the
function-level variable `err`, and the effects so far. -/
structure Run (Rec : Type) where
  out : List Rec
  err : Option Error
  trace : List Event

/-- Result of a parse method: the collection, the returned error, the effects. -/
structure ParseResult (Rec : Type) where
  wp : List Rec
  ret : Option Error
  trace : List Event

/-! ## Records -/

structure loginData where
  UserName : String
  encryptPass : Bytes
  encryptUser : Bytes
  Password : String
  LoginUrl : String
  CreateDate : Time
deriving DecidableEq, Repr

structure bookmark where
  ID : Int
  Name : String
  Type_ : String
  URL : String
  DateAdded : Time
deriving DecidableEq, Repr

structure cookie where
  Host : String
  Path : String
  KeyName : String
  encryptValue : Bytes
  Value : String
  IsSecure : Bool
  IsHTTPOnly : Bool
  HasExpire : Bool
  IsPersistent : Bool
  CreateDate : Time
  ExpireDate : Time
deriving DecidableEq, Repr

structure history where
  Title : String
  Url : String
  VisitCount : Int
  LastVisitTime : Time
deriving DecidableEq, Repr

structure download where
  TargetPath : String
  Url : String
  TotalBytes : Int
  StartTime : Time
  EndTime : Time
  MimeType : String
deriving DecidableEq, Repr

structure card where
  GUID : String
  Name : String
  ExpirationYear : String
  ExpirationMonth : String
  CardNumber : String
deriving DecidableEq, Repr

/-! ## WebkitPassword.parse -/

/-- A fetched row of `queryChromiumLogin`, column by column. -/
structure LoginRow where
  origin_url : Cell String
  username_value : Cell String
  password_value : Cell Bytes
  date_created : Cell Int

/-- Destination variables after `rows.Scan(&url, &username, &pwd, &create)`. -/
structure LoginScan where
  url : String
  username : String
  pwd : Bytes
  create : Int
  err : Option Error

def scanLogin (r : LoginRow) : LoginScan :=
  let c1 := scanCol "" r.origin_url none
  let c2 := scanCol "" r.username_value c1.2
  let c3 := scanCol [] r.password_value c2.2
  let c4 := scanCol 0 r.date_created c3.2
  { url := c1.1, username := c2.1, pwd := c3.1, create := c4.1, err := c4.2 }

/-- Effects of `if err != nil { log.Println(err) }`. -/
def logIfErr (err : Option Error) : List Event :=
  match err with
  | some e => [Event.logPrintln e]
  | none => []

/-- Effects of `if err != nil { fmt.Println(err) }`. -/
def printIfErr (err : Option Error) : List Event :=
  match err with
  | some e => [Event.fmtPrintln e]
  | none => []

/-- Lines 65-71: the decryption of a login password; yields `password`, the
new value of `err`, and the decryptor call made. -/
def WebkitPassword.decryptPwd (d : Decrypt) (masterKey : Option Bytes) (pwd : Bytes)
    (err : Option Error) : (Bytes × Option Error) × List Event :=
  if pwd.length > 0 then
    match masterKey with
    | none => (assignResult (d.DPAPI pwd), [Event.callDPAPI pwd])
    | some k => (assignResult (d.ChromePass k pwd), [Event.callChromePass k pwd])
  else (([], err), [])

/-- Body of the loop of `WebkitPassword.parse` (lines 51-81); `now` is the
value of `time.Now().Unix()` read in this iteration. -/
def WebkitPassword.body (u : Utils) (d : Decrypt) (masterKey : Option Bytes) (now : Int)
    (row : LoginRow) (st : Run loginData) : Run loginData :=
  let s := scanLogin row
  let dec := WebkitPassword.decryptPwd d masterKey s.pwd s.err
  let password := dec.1.1
  let err := dec.1.2
  let diag : List Event :=
    match err with
    | some e => [Event.fmtPrintf s.url e]
    | none => []
  let createDate := if s.create > now then u.TimeEpochFormat s.create else u.TimeStampFormat s.create
  let login : loginData :=
    { UserName := s.username, encryptPass := s.pwd, encryptUser := [],
      Password := goString password, LoginUrl := s.url, CreateDate := createDate }
  { out := st.out ++ [login], err := err, trace := st.trace ++ logIfErr s.err ++ dec.2 ++ diag }

/-- The loop `for rows.Next() { .. }`; `clock i` is the reading of
`time.Now().Unix()` in iteration `i`. -/
def WebkitPassword.loop (u : Utils) (d : Decrypt) (masterKey : Option Bytes) (clock : Nat → Int) :
    Nat → List LoginRow → Run loginData → Run loginData
  | _, [], st => st
  | i, row :: rest, st =>
    WebkitPassword.loop u d masterKey clock (i + 1) rest
      (WebkitPassword.body u d masterKey (clock i) row st)

def WebkitPassword.parse (u : Utils) (d : Decrypt) (db : DB LoginRow) (masterKey : Option Bytes)
    (clock : Nat → Int) (wp : List loginData) : ParseResult loginData :=
  match db with
  | .openFails e => { wp := wp, ret := some e, trace := [] }
  | .queryFails e => { wp := wp, ret := some e, trace := [] }
  | .rows rs =>
    let st := WebkitPassword.loop u d masterKey clock 0 rs { out := wp, err := none, trace := [] }
    { wp := st.out, ret := none, trace := st.trace }

/-! ## WebkitCookie.parse -/

/-- A fetched row of `queryChromiumCookie`, column by column. -/
structure CookieRow where
  name : Cell String
  encrypted_value : Cell Bytes
  host_key : Cell String
  path : Cell String
  creation_utc : Cell Int
  expires_utc : Cell Int
  is_secure : Cell Int
  is_httponly : Cell Int
  has_expires : Cell Int
  is_persistent : Cell Int

/-- Destination variables after the `rows.Scan` of line 106. -/
structure CookieScan where
  key : String
  encryptValue : Bytes
  host : String
  path : String
  createDate : Int
  expireDate : Int
  isSecure : Int
  isHTTPOnly : Int
  hasExpire : Int
  isPersistent : Int
  err : Option Error

def scanCookie (r : CookieRow) : CookieScan :=
  let c1 := scanCol "" r.name none
  let c2 := scanCol [] r.encrypted_value c1.2
  let c3 := scanCol "" r.host_key c2.2
  let c4 := scanCol "" r.path c3.2
  let c5 := scanCol 0 r.creation_utc c4.2
  let c6 := scanCol 0 r.expires_utc c5.2
  let c7 := scanCol 0 r.is_secure c6.2
  let c8 := scanCol 0 r.is_httponly c7.2
  let c9 := scanCol 0 r.has_expires c8.2
  let c10 := scanCol 0 r.is_persistent c9.2
  { key := c1.1, encryptValue := c2.1, host := c3.1, path := c4.1, createDate := c5.1,
    expireDate := c6.1, isSecure := c7.1, isHTTPOnly := c8.1, hasExpire := c9.1,
    isPersistent := c10.1, err := c10.2 }

/-- Lines 123-133 and 248-258 without their `if err != nil` blocks: the
decryptor chosen by `masterKey == nil`, applied to the scanned ciphertext. -/
def decryptValue (d : Decrypt) (masterKey : Option Bytes) (encryptValue : Bytes) :
    (Bytes × Option Error) × List Event :=
  match masterKey with
  | none => (assignResult (d.DPAPI encryptValue), [Event.callDPAPI encryptValue])
  | some k => (assignResult (d.ChromePass k encryptValue), [Event.callChromePass k encryptValue])

/-- Body of the loop of `WebkitCookie.parse` (lines 100-135).  Both
`if err != nil { }` blocks after the decryptor calls are empty. -/
def WebkitCookie.body (u : Utils) (d : Decrypt) (masterKey : Option Bytes)
    (row : CookieRow) (st : Run cookie) : Run cookie :=
  let s := scanCookie row
  let dec := decryptValue d masterKey s.encryptValue
  let value := dec.1.1
  let err := dec.1.2
  let c : cookie :=
    { KeyName := s.key, Host := s.host, Path := s.path, encryptValue := s.encryptValue,
      IsSecure := u.IntToBool s.isSecure, IsHTTPOnly := u.IntToBool s.isHTTPOnly,
      HasExpire := u.IntToBool s.hasExpire, IsPersistent := u.IntToBool s.isPersistent,
      CreateDate := u.TimeEpochFormat s.createDate, ExpireDate := u.TimeEpochFormat s.expireDate,
      Value := goString value }
  { out := st.out ++ [c], err := err, trace := st.trace ++ printIfErr s.err ++ dec.2 }

def WebkitCookie.loop (u : Utils) (d : Decrypt) (masterKey : Option Bytes) :
    List CookieRow → Run cookie → Run cookie
  | [], st => st
  | row :: rest, st => WebkitCookie.loop u d masterKey rest (WebkitCookie.body u d masterKey row st)

def WebkitCookie.parse (u : Utils) (d : Decrypt) (db : DB CookieRow) (masterKey : Option Bytes)
    (wc : List cookie) : ParseResult cookie :=
  match db with
  | .openFails e => { wp := wc, ret := some e, trace := [] }
  | .queryFails e => { wp := wc, ret := some e, trace := [] }
  | .rows rs =>
    let st := WebkitCookie.loop u d masterKey rs { out := wc, err := none, trace := [] }
    { wp := st.out, ret := none, trace := st.trace }

/-! ## WebkitHistory.parse -/

/-- A fetched row of `queryChromiumHistory`, column by column. -/
structure HistoryRow where
  url : Cell String
  title : Cell String
  visit_count : Cell Int
  last_visit_time : Cell Int

/-- Destination variables after the `rows.Scan` of line 207. -/
structure HistoryScan where
  url : String
  title : String
  visitCount : Int
  lastVisitTime : Int
  err : Option Error

def scanHistory (r : HistoryRow) : HistoryScan :=
  let c1 := scanCol "" r.url none
  let c2 := scanCol "" r.title c1.2
  let c3 := scanCol 0 r.visit_count c2.2
  let c4 := scanCol 0 r.last_visit_time c3.2
  { url := c1.1, title := c2.1, visitCount := c3.1, lastVisitTime := c4.1, err := c4.2 }

/-- Body of the loop of `WebkitHistory.parse` (lines 201-216); the scan error
is a variable local to the `if`, the function-level `err` is untouched. -/
def WebkitHistory.body (u : Utils) (row : HistoryRow) (st : Run history) : Run history :=
  let s := scanHistory row
  let data : history :=
    { Url := s.url, Title := s.title, VisitCount := s.visitCount,
      LastVisitTime := u.TimeEpochFormat s.lastVisitTime }
  { out := st.out ++ [data], err := st.err, trace := st.trace ++ printIfErr s.err }

def WebkitHistory.loop (u : Utils) : List HistoryRow → Run history → Run history
  | [], st => st
  | row :: rest, st => WebkitHistory.loop u rest (WebkitHistory.body u row st)

def WebkitHistory.parse (u : Utils) (db : DB HistoryRow) (wh : List history) :
    ParseResult history :=
  match db with
  | .openFails e => { wp := wh, ret := some e, trace := [] }
  | .queryFails e => { wp := wh, ret := some e, trace := [] }
  | .rows rs =>
    let st := WebkitHistory.loop u rs { out := wh, err := none, trace := [] }
    { wp := st.out, ret := none, trace := st.trace }

/-! ## WebkitCreditCard.parse -/

/-- A fetched row of `queryChromiumCredit`, column by column. -/
structure CreditRow where
  guid : Cell String
  name_on_card : Cell String
  expiration_month : Cell String
  expiration_year : Cell String
  card_number_encrypted : Cell Bytes

/-- Destination variables after the `rows.Scan` of line 239. -/
structure CreditScan where
  guid : String
  name : String
  month : String
  year : String
  encryptValue : Bytes
  err : Option Error

def scanCredit (r : CreditRow) : CreditScan :=
  let c1 := scanCol "" r.guid none
  let c2 := scanCol "" r.name_on_card c1.2
  let c3 := scanCol "" r.expiration_month c2.2
  let c4 := scanCol "" r.expiration_year c3.2
  let c5 := scanCol [] r.card_number_encrypted c4.2
  { guid := c1.1, name := c2.1, month := c3.1, year := c4.1, encryptValue := c5.1, err := c5.2 }

/-- Body of the loop of `WebkitCreditCard.parse` (lines 235-260); after either
decryptor call, `if err != nil { fmt.Println(err) }`. -/
def WebkitCreditCard.body (d : Decrypt) (masterKey : Option Bytes)
    (row : CreditRow) (st : Run card) : Run card :=
  let s := scanCredit row
  let dec := decryptValue d masterKey s.encryptValue
  let value := dec.1.1
  let err := dec.1.2
  let creditCardInfo : card :=
    { GUID := s.guid, Name := s.name, ExpirationMonth := s.month, ExpirationYear := s.year,
      CardNumber := goString value }
  { out := st.out ++ [creditCardInfo], err := err,
    trace := st.trace ++ printIfErr s.err ++ dec.2 ++ printIfErr err }

def WebkitCreditCard.loop (d : Decrypt) (masterKey : Option Bytes) :
    List CreditRow → Run card → Run card
  | [], st => st
  | row :: rest, st => WebkitCreditCard.loop d masterKey rest (WebkitCreditCard.body d masterKey row st)

def WebkitCreditCard.parse (d : Decrypt) (db : DB CreditRow) (masterKey : Option Bytes)
    (wc : List card) : ParseResult card :=
  match db with
  | .openFails e => { wp := wc, ret := some e, trace := [] }
  | .queryFails e => { wp := wc, ret := some e, trace := [] }
  | .rows rs =>
    let st := WebkitCreditCard.loop d masterKey rs { out := wc, err := none, trace := [] }
    { wp := st.out, ret := none, trace := st.trace }

/-! ## WebkitDownload.parse -/

/-- A fetched row of `queryChromiumDownload`, column by column. -/
structure DownloadRow where
  target_path : Cell String
  tab_url : Cell String
  total_bytes : Cell Int
  start_time : Cell Int
  end_time : Cell Int
  mime_type : Cell String

/-- Destination variables after the `rows.Scan` of line 283. -/
structure DownloadScan where
  targetPath : String
  tabUrl : String
  totalBytes : Int
  startTime : Int
  endTime : Int
  mimeType : String
  err : Option Error

def scanDownload (r : DownloadRow) : DownloadScan :=
  let c1 := scanCol "" r.target_path none
  let c2 := scanCol "" r.tab_url c1.2
  let c3 := scanCol 0 r.total_bytes c2.2
  let c4 := scanCol 0 r.start_time c3.2
  let c5 := scanCol 0 r.end_time c4.2
  let c6 := scanCol "" r.mime_type c5.2
  { targetPath := c1.1, tabUrl := c2.1, totalBytes := c3.1, startTime := c4.1, endTime := c5.1,
    mimeType := c6.1, err := c6.2 }

/-- Body of the loop of `WebkitDownload.parse` (lines 279-294). -/
def WebkitDownload.body (u : Utils) (row : DownloadRow) (st : Run download) : Run download :=
  let s := scanDownload row
  let data : download :=
    { TargetPath := s.targetPath, Url := s.tabUrl, TotalBytes := s.totalBytes,
      StartTime := u.TimeEpochFormat s.startTime, EndTime := u.TimeEpochFormat s.endTime,
      MimeType := s.mimeType }
  { out := st.out ++ [data], err := st.err, trace := st.trace ++ printIfErr s.err }

def WebkitDownload.loop (u : Utils) : List DownloadRow → Run download → Run download
  | [], st => st
  | row :: rest, st => WebkitDownload.loop u rest (WebkitDownload.body u row st)

def WebkitDownload.parse (u : Utils) (db : DB DownloadRow) (wd : List download) :
    ParseResult download :=
  match db with
  | .openFails e => { wp := wd, ret := some e, trace := [] }
  | .queryFails e => { wp := wd, ret := some e, trace := [] }
  | .rows rs =>
    let st := WebkitDownload.loop u rs { out := wd, err := none, trace := [] }
    { wp := st.out, ret := none, trace := st.trace }

/-! ## WebkitBookmark.parse and getBookmarkChildren -/

mutual
/-- A `gjson.Result` as `getBookmarkChildren` observes its argument `value`:
`type` is `none` when `value.Get("type").Exists()` is false and otherwise holds
`value.Get("type").String()`; `id` is `value.Get("id").Int()`, `name` is
`value.Get("name").String()`, `url` is `value.Get("url").String()`,
`date_added` is `value.Get("date_added").Int()`, and `children` is
`value.Get("children")`. -/
inductive Result where
  | mk (type : Option String) (id : Int) (name : String) (url : String) (date_added : Int)
      (children : Children)
/-- The `gjson.Result` `value.Get("children")` as the code observes it. -/
inductive Children where
  /-- The result for which `Exists()` is false. -/
  | missing
  /-- The result exists and `IsArray()` is false. -/
  | notArray
  /-- The result exists, `IsArray()` is true and `Array()` is `elems`. -/
  | array (elems : List Result)
end

def Result.type : Result → Option String
  | .mk t _ _ _ _ _ => t

def Result.id : Result → Int
  | .mk _ i _ _ _ _ => i

def Result.name : Result → String
  | .mk _ _ n _ _ _ => n

def Result.url : Result → String
  | .mk _ _ _ x _ _ => x

def Result.date_added : Result → Int
  | .mk _ _ _ _ d _ => d

def Result.children : Result → Children
  | .mk _ _ _ _ _ c => c

mutual
/-- The function `getBookmarkChildren` (lines 158-185): returns the named
result `children` and the collection behind `wb`. -/
def getBookmarkChildren (u : Utils) : Result → List bookmark → Children × List bookmark
  | .mk nodeType id name url date_added children, wb =>
    match nodeType with
    | some t =>
      let bm : bookmark :=
        { ID := id, Name := name, URL := url, DateAdded := u.TimeEpochFormat date_added,
          Type_ := t }
      match children with
      | .array elems => getBookmarkChildren.range u elems (children, wb ++ [bm])
      | _ => (children, wb ++ [bm])
    | none => (children, wb)
/-- The loop `for _, v := range children.Array() { children = getBookmarkChildren(v, wb) }`. -/
def getBookmarkChildren.range (u : Utils) :
    List Result → Children × List bookmark → Children × List bookmark
  | [], acc => acc
  | v :: rest, acc => getBookmarkChildren.range u rest (getBookmarkChildren u v acc.2)
end

/-- What `WebkitBookmark.parse` observes of `r := gjson.Parse(bookmarks)`:
`r.Exists()`, and the values `r.Get("roots").ForEach` hands to its iterator. -/
structure Parsed where
  Exists : Bool
  roots : List Result

/-- The iteration `roots.ForEach(..)` of lines 150-153; the iterator always
returns true, so every value is visited. -/
def WebkitBookmark.forEach (u : Utils) : List Result → List bookmark → List bookmark
  | [], wb => wb
  | value :: rest, wb => WebkitBookmark.forEach u rest (getBookmarkChildren u value wb).2

/-- The method `WebkitBookmark.parse` (lines 142-156); `fileName` is
`itemer.FileName(Chrome)` and `gjsonParse` is `gjson.Parse`. -/
def WebkitBookmark.parse (u : Utils) (gjsonParse : String → Parsed) (fileName : String)
    (wb : List bookmark) : ParseResult bookmark :=
  match u.ReadFile fileName with
  | .error e => { wp := wb, ret := some e, trace := [] }
  | .ok bookmarks =>
    let r := gjsonParse bookmarks
    if r.Exists then
      { wp := WebkitBookmark.forEach u r.roots wb, ret := none, trace := [] }
    else { wp := wb, ret := none, trace := [] }

/-! ## The Gecko master-key chain -/

/-- Modelled from the spec: the profile-level errors of section 7.  The file
under `src/` declares `type GeckoPassword []loginData` and gives it no `parse`
method, so the Gecko chain has no error values of its own. -/
inductive ProfileLevelError where
  | KeyMaterialUnavailable
  | KeyMismatch
  | MalformedCiphertext
  | MasterPasswordRequired
  | UnsupportedKeyFormat
  | UnsupportedCipher
deriving DecidableEq, Repr

/-- Modelled from the spec: the Gecko variant of `MasterKeyMaterial` of section
3, `{globalSalt, metaBytes, nssA11, nssA102}`, which no live code of the file
loads. -/
structure GeckoKeyMaterial where
  globalSalt : Bytes
  metaBytes : Bytes
  nssA11 : Bytes
  nssA102 : Bytes

/-- Modelled from the spec: the ASN.1 PBE operations section 4.4 relies on
(package `internal/decrypt` is not under `src/`).  `decode` reads a byte
sequence as a PBE structure or fails, for an unknown object identifier with
`UnsupportedCipher`; `decrypt` derives the stage key from the global salt and
the password and decrypts the ciphertext of the structure. -/
structure PBE where
  Structure : Type
  decode : Bytes → Except ProfileLevelError Structure
  decrypt : Structure → Bytes → Bytes → Except ProfileLevelError Bytes

/-- The two stages of the chain of section 4.4. -/
inductive Stage where
  /-- Stage 1, on `metaBytes`. -/
  | one
  /-- Stage 2, on `nssA11`. -/
  | two
deriving DecidableEq, Repr

/-- Modelled from the spec: the instrumentation hook of section 8, which
records every PBE operation the resolver invokes, with its stage. -/
inductive ResolveEvent where
  /-- Decoding of a byte sequence as a PBE structure. -/
  | decode (stage : Stage) (b : Bytes)
  /-- Decryption of a decoded structure under the global salt and password. -/
  | decrypt (stage : Stage) (globalSalt : Bytes) (password : Bytes)
deriving DecidableEq, Repr

/-- Invocations of the second stage: decoding and decrypting `nssA11`. -/
def ResolveEvent.isStage2 : ResolveEvent → Bool
  | .decode .two _ => true
  | .decrypt .two _ _ => true
  | _ => false

/-- Whether `b` begins with `sub`. -/
def bytesStartsWith : Bytes → Bytes → Bool
  | _, [] => true
  | [], _ :: _ => false
  | b :: bs, x :: xs => b == x && bytesStartsWith bs xs

/-- Whether `sub` occurs in `b` as a contiguous run (Go `bytes.Contains`). -/
def bytesContains : Bytes → Bytes → Bool
  | [], sub => sub.isEmpty
  | b :: bs, sub => bytesStartsWith (b :: bs) sub || bytesContains bs sub

/-- The bytes of the check string `"password-check"`. -/
def passwordCheck : Bytes := [112, 97, 115, 115, 119, 111, 114, 100, 45, 99, 104, 101, 99, 107]

/-- Modelled from the spec: the fixed 16-byte sentinel marker of section 4.4,
which no live code of the file defines; its bytes are those the source quotes
at line 306. -/
def keyLin : Bytes := [248, 0, 0, 0, 0, 0, 0, 0, 0, 0, 0, 0, 0, 0, 0, 1]

/-- Result of the resolver: the key or the error, and the recorded operations. -/
structure Resolution where
  result : Except ProfileLevelError Bytes
  trace : List ResolveEvent

/-- Modelled from the spec: stage 2 of section 4.4, which `src/` does not
implement.  Decode `nssA11` as a PBE structure, validate that `nssA102` equals
the sentinel marker (mismatch gives `UnsupportedKeyFormat`), decrypt the
ciphertext of `nssA11`, and take the first 24 bytes as the resolved key. -/
def resolveStage2 (c : PBE) (m : GeckoKeyMaterial) (password : Bytes)
    (tr : List ResolveEvent) : Resolution :=
  let tr1 := tr ++ [ResolveEvent.decode .two m.nssA11]
  match c.decode m.nssA11 with
  | .error e => { result := .error e, trace := tr1 }
  | .ok nssPBE =>
    if m.nssA102 = keyLin then
      let tr2 := tr1 ++ [ResolveEvent.decrypt .two m.globalSalt password]
      match c.decrypt nssPBE m.globalSalt password with
      | .error e => { result := .error e, trace := tr2 }
      | .ok raw => { result := .ok (raw.take 24), trace := tr2 }
    else { result := .error .UnsupportedKeyFormat, trace := tr1 }

/-- Modelled from the spec: the Gecko path of the master-key resolver of
section 4.4, which `src/` does not implement (`GeckoPassword` has no `parse`
method).  Stage 1 decodes `metaBytes` as a PBE structure and decrypts its
ciphertext under the global salt and the supplied password; if the plaintext
does not contain the check string the resolver returns
`MasterPasswordRequired` and does not proceed to stage 2. -/
def resolveGeckoMasterKey (c : PBE) (m : GeckoKeyMaterial) (password : Bytes) : Resolution :=
  let tr1 := [ResolveEvent.decode .one m.metaBytes]
  match c.decode m.metaBytes with
  | .error e => { result := .error e, trace := tr1 }
  | .ok metaPBE =>
    let tr2 := tr1 ++ [ResolveEvent.decrypt .one m.globalSalt password]
    match c.decrypt metaPBE m.globalSalt password with
    | .error e => { result := .error e, trace := tr2 }
    | .ok plain =>
      if bytesContains plain passwordCheck then resolveStage2 c m password tr2
      else { result := .error .MasterPasswordRequired, trace := tr2 }

/-! ## Vocabulary of the statements -/

/-- The field decryptor of section 4.5 of the specification for the Webkit
family: OS-Unwrap in legacy mode (no master key), the keyed operation
otherwise. -/
def fieldDecryptor (d : Decrypt) (masterKey : Option Bytes) (ct : Bytes) : Except Error Bytes :=
  match masterKey with
  | none => d.DPAPI ct
  | some k => d.ChromePass k ct

/-- The single decryptor call section 4.5 prescribes for a ciphertext. -/
def expectedCall (masterKey : Option Bytes) (ct : Bytes) : Event :=
  match masterKey with
  | none => Event.callDPAPI ct
  | some k => Event.callChromePass k ct

/-- The value of `login` appended by one iteration of `WebkitPassword.parse`. -/
def WebkitPassword.record (u : Utils) (d : Decrypt) (masterKey : Option Bytes) (now : Int)
    (row : LoginRow) : loginData :=
  { UserName := (scanLogin row).username, encryptPass := (scanLogin row).pwd, encryptUser := [],
    Password := goString
      (WebkitPassword.decryptPwd d masterKey (scanLogin row).pwd (scanLogin row).err).1.1,
    LoginUrl := (scanLogin row).url,
    CreateDate := if (scanLogin row).create > now then u.TimeEpochFormat (scanLogin row).create
      else u.TimeStampFormat (scanLogin row).create }

/-- The value of `err` after line 71 of one iteration of `WebkitPassword.parse`. -/
def WebkitPassword.errAfter (d : Decrypt) (masterKey : Option Bytes) (row : LoginRow) :
    Option Error :=
  (WebkitPassword.decryptPwd d masterKey (scanLogin row).pwd (scanLogin row).err).1.2

/-- The effects of one iteration of `WebkitPassword.parse`. -/
def WebkitPassword.effects (d : Decrypt) (masterKey : Option Bytes) (row : LoginRow) :
    List Event :=
  logIfErr (scanLogin row).err
    ++ (WebkitPassword.decryptPwd d masterKey (scanLogin row).pwd (scanLogin row).err).2
    ++ (match WebkitPassword.errAfter d masterKey row with
        | some e => [Event.fmtPrintf (scanLogin row).url e]
        | none => [])

/-- The value of `cookie` appended by one iteration of `WebkitCookie.parse`. -/
def WebkitCookie.record (u : Utils) (d : Decrypt) (masterKey : Option Bytes) (row : CookieRow) :
    cookie :=
  { KeyName := (scanCookie row).key, Host := (scanCookie row).host, Path := (scanCookie row).path,
    encryptValue := (scanCookie row).encryptValue,
    IsSecure := u.IntToBool (scanCookie row).isSecure,
    IsHTTPOnly := u.IntToBool (scanCookie row).isHTTPOnly,
    HasExpire := u.IntToBool (scanCookie row).hasExpire,
    IsPersistent := u.IntToBool (scanCookie row).isPersistent,
    CreateDate := u.TimeEpochFormat (scanCookie row).createDate,
    ExpireDate := u.TimeEpochFormat (scanCookie row).expireDate,
    Value := goString (decryptValue d masterKey (scanCookie row).encryptValue).1.1 }

/-- The effects of one iteration of `WebkitCookie.parse`. -/
def WebkitCookie.effects (d : Decrypt) (masterKey : Option Bytes) (row : CookieRow) : List Event :=
  printIfErr (scanCookie row).err ++ (decryptValue d masterKey (scanCookie row).encryptValue).2

/-- The value of `creditCardInfo` appended by one iteration of `WebkitCreditCard.parse`. -/
def WebkitCreditCard.record (d : Decrypt) (masterKey : Option Bytes) (row : CreditRow) : card :=
  { GUID := (scanCredit row).guid, Name := (scanCredit row).name,
    ExpirationMonth := (scanCredit row).month, ExpirationYear := (scanCredit row).year,
    CardNumber := goString (decryptValue d masterKey (scanCredit row).encryptValue).1.1 }

/-- The effects of one iteration of `WebkitCreditCard.parse`. -/
def WebkitCreditCard.effects (d : Decrypt) (masterKey : Option Bytes) (row : CreditRow) :
    List Event :=
  printIfErr (scanCredit row).err ++ (decryptValue d masterKey (scanCredit row).encryptValue).2
    ++ printIfErr (decryptValue d masterKey (scanCredit row).encryptValue).1.2

/-- The value of `data` appended by one iteration of `WebkitHistory.parse`. -/
def WebkitHistory.record (u : Utils) (row : HistoryRow) : history :=
  { Url := (scanHistory row).url, Title := (scanHistory row).title,
    VisitCount := (scanHistory row).visitCount,
    LastVisitTime := u.TimeEpochFormat (scanHistory row).lastVisitTime }

/-- The value of `data` appended by one iteration of `WebkitDownload.parse`. -/
def WebkitDownload.record (u : Utils) (row : DownloadRow) : download :=
  { TargetPath := (scanDownload row).targetPath, Url := (scanDownload row).tabUrl,
    TotalBytes := (scanDownload row).totalBytes,
    StartTime := u.TimeEpochFormat (scanDownload row).startTime,
    EndTime := u.TimeEpochFormat (scanDownload row).endTime,
    MimeType := (scanDownload row).mimeType }

/-- The columns of a login record that are copied from the row. -/
def loginData.plain (l : loginData) : String × String × Bytes :=
  (l.LoginUrl, l.UserName, l.encryptPass)

/-- The columns of a scanned login row that are copied into the record. -/
def LoginScan.plain (s : LoginScan) : String × String × Bytes :=
  (s.url, s.username, s.pwd)

/-- The columns of a cookie record that are copied from the row. -/
def cookie.plain (c : cookie) : String × String × String × Bytes :=
  (c.KeyName, c.Host, c.Path, c.encryptValue)

/-- The columns of a scanned cookie row that are copied into the record. -/
def CookieScan.plain (s : CookieScan) : String × String × String × Bytes :=
  (s.key, s.host, s.path, s.encryptValue)

/-- The columns of a card record that are copied from the row. -/
def card.plain (c : card) : String × String × String × String :=
  (c.GUID, c.Name, c.ExpirationMonth, c.ExpirationYear)

/-- The columns of a scanned card row that are copied into the record. -/
def CreditScan.plain (s : CreditScan) : String × String × String × String :=
  (s.guid, s.name, s.month, s.year)

/-! ## Concrete collaborators for the worked runs -/

/-- Modelled from the spec: package `utils` is not under `src/`.  Section 6
names two encodings of a raw timestamp, microseconds since 1601-01-01 and
seconds since the Unix epoch; 11644473600 seconds lie between the two epochs.
The flag conversion maps 0 to false. -/
def specUtils : Utils :=
  { TimeEpochFormat := fun t => ⟨(t - 11644473600000000) * 1000⟩
    TimeStampFormat := fun t => ⟨t * 1000000000⟩
    IntToBool := fun a => a != 0
    ReadFile := fun _ => .error "no such file" }

/-- A mock decryption backend (section 9 of the specification): a ciphertext is
the byte 1 followed by the plaintext; any other blob fails to decrypt. -/
def mockDecrypt : Decrypt :=
  { DPAPI := fun ct =>
      match ct with
      | 1 :: plain => .ok plain
      | _ => .error "unprotect failed"
    ChromePass := fun _ ct =>
      match ct with
      | 1 :: plain => .ok plain
      | _ => .error "message authentication failed" }

/-- A well-formed login row whose password encrypts the single byte `n`. -/
def goodLogin (n : Nat) : LoginRow :=
  { origin_url := .ok "https://example.org", username_value := .ok "alice",
    password_value := .ok [1, n], date_created := .ok 13260000000000000 }

/-- A well-formed login row whose ciphertext is corrupted. -/
def corruptLogin : LoginRow :=
  { origin_url := .ok "https://example.org", username_value := .ok "alice",
    password_value := .ok [0, 101], date_created := .ok 13260000000000000 }

/-- Ten login rows; the fifth carries a corrupted ciphertext. -/
def tenLogins : List LoginRow :=
  [goodLogin 97, goodLogin 98, goodLogin 99, goodLogin 100, corruptLogin,
   goodLogin 102, goodLogin 103, goodLogin 104, goodLogin 105, goodLogin 106]

/-- A well-formed login row whose encrypted-password column is empty. -/
def emptyPwdLogin : LoginRow :=
  { origin_url := .ok "https://example.net", username_value := .ok "bob",
    password_value := .ok [], date_created := .ok 1609459200 }

/-- A well-formed cookie row whose ciphertext is corrupted. -/
def corruptCookie : CookieRow :=
  { name := .ok "sid", encrypted_value := .ok [0, 101], host_key := .ok ".example.org",
    path := .ok "/", creation_utc := .ok 13260000000000000, expires_utc := .ok 13270000000000000,
    is_secure := .ok 1, is_httponly := .ok 1, has_expires := .ok 1, is_persistent := .ok 1 }

/-- A well-formed cookie row whose ciphertext decrypts to the empty plaintext. -/
def emptyCookie : CookieRow :=
  { name := .ok "sid", encrypted_value := .ok [1], host_key := .ok ".example.org",
    path := .ok "/", creation_utc := .ok 13260000000000000, expires_utc := .ok 13270000000000000,
    is_secure := .ok 1, is_httponly := .ok 1, has_expires := .ok 1, is_persistent := .ok 1 }

/-- A well-formed credit-card row whose ciphertext is corrupted. -/
def corruptCard : CreditRow :=
  { guid := .ok "g-1", name_on_card := .ok "A. Lice", expiration_month := .ok "12",
    expiration_year := .ok "2030", card_number_encrypted := .ok [0, 101] }

/-- The error of `rows.Scan` on a NULL column with an integer destination. -/
def nullInt : Error := "converting NULL to int64 is unsupported"

/-- The error of `rows.Scan` on a NULL column with a string destination. -/
def nullString : Error := "converting NULL to string is unsupported"

/-- A login row whose `username_value` column is NULL. -/
def malformedLogin : LoginRow :=
  { origin_url := .ok "https://example.org", username_value := .error nullString,
    password_value := .ok [1, 97], date_created := .ok 13260000000000000 }

/-- A cookie row whose `host_key` column is NULL. -/
def malformedCookie : CookieRow :=
  { name := .ok "sid", encrypted_value := .ok [1, 97], host_key := .error nullString,
    path := .ok "/", creation_utc := .ok 13260000000000000, expires_utc := .ok 13270000000000000,
    is_secure := .ok 1, is_httponly := .ok 1, has_expires := .ok 1, is_persistent := .ok 1 }

/-- A history row whose `title` column is NULL. -/
def malformedHistory : HistoryRow :=
  { url := .ok "https://example.org", title := .error nullString, visit_count := .ok 3,
    last_visit_time := .ok 13260000000000000 }

/-- A download row whose `total_bytes` column is NULL. -/
def malformedDownload : DownloadRow :=
  { target_path := .ok "/tmp/a.zip", tab_url := .ok "https://example.org/a.zip",
    total_bytes := .error nullInt, start_time := .ok 13260000000000000,
    end_time := .ok 13260000000000001, mime_type := .ok "application/zip" }

/-- A credit-card row whose `name_on_card` column is NULL. -/
def malformedCard : CreditRow :=
  { guid := .ok "g-1", name_on_card := .error nullString, expiration_month := .ok "12",
    expiration_year := .ok "2030", card_number_encrypted := .ok [1, 52] }

/-! ## Bookmark trees -/

/-- The record `getBookmarkChildren` builds for a node: its id, name, url, type
and converted `date_added`. -/
def toBookmark (u : Utils) (value : Result) : bookmark :=
  { ID := value.id, Name := value.name, URL := value.url,
    DateAdded := u.TimeEpochFormat value.date_added, Type_ := value.type.getD "" }

mutual
/-- The nodes of a bookmark tree in pre-order: the node itself, then the
subtrees of the elements of its `children` array, in array order. -/
def Result.preorder : Result → List Result
  | .mk t i n x d c => Result.mk t i n x d c :: Children.preorder c
/-- The nodes below a `children` result, in pre-order. -/
def Children.preorder : Children → List Result
  | .array elems => preorderList elems
  | .missing => []
  | .notArray => []
/-- The nodes of a sequence of subtrees, in pre-order. -/
def preorderList : List Result → List Result
  | [] => []
  | v :: rest => Result.preorder v ++ preorderList rest
end

mutual
/-- Every node of the tree carries a type marker. -/
def Result.allTyped : Result → Bool
  | .mk t _ _ _ _ c => t.isSome && Children.allTyped c
/-- Every node below a `children` result carries a type marker. -/
def Children.allTyped : Children → Bool
  | .array elems => allTypedList elems
  | .missing => true
  | .notArray => true
/-- Every node of a sequence of subtrees carries a type marker. -/
def allTypedList : List Result → Bool
  | [] => true
  | v :: rest => Result.allTyped v && allTypedList rest
end

mutual
/-- The nodes of a tree reached from the root through typed nodes only, in
pre-order: the subtree of a node without a type marker is left out whole. -/
def Result.visited : Result → List Result
  | .mk none _ _ _ _ _ => []
  | .mk (some t) i n x d c => Result.mk (some t) i n x d c :: Children.visited c
/-- The nodes below a `children` result reached through typed nodes only. -/
def Children.visited : Children → List Result
  | .array elems => visitedList elems
  | .missing => []
  | .notArray => []
/-- The nodes of a sequence of subtrees reached through typed nodes only. -/
def visitedList : List Result → List Result
  | [] => []
  | v :: rest => Result.visited v ++ visitedList rest
end

/-- A typed leaf (a bookmark of type url). -/
def urlNode (id : Int) : Result :=
  .mk (some "url") id "page" "https://example.org/page" 13260000000000000 .missing

/-- A tree of three levels in which every node is typed. -/
def typedTree : Result :=
  .mk (some "folder") 1 "bar" "" 13250000000000000
    (.array [.mk (some "folder") 2 "work" "" 13255000000000000 (.array [urlNode 3, urlNode 4]),
             urlNode 5])

/-- A tree of three levels whose middle node has no type marker and whose
children are typed. -/
def untypedMiddleTree : Result :=
  .mk (some "folder") 1 "bar" "" 13250000000000000
    (.array [.mk none 2 "work" "" 13255000000000000 (.array [urlNode 3, urlNode 4]),
             urlNode 5])

/-- A mock PBE backend: a decoded item is its own byte sequence, a sequence
that starts with the byte 48 decodes, and decryption of `48 :: body` under the
empty password yields `body`; under any other password it yields the item
unchanged. -/
def mockPBE : PBE :=
  { Structure := Bytes
    decode := fun b =>
      match b with
      | 48 :: _ => .ok b
      | _ => .error .UnsupportedCipher
    decrypt := fun pbe _ password =>
      match password, pbe with
      | [], _ :: body => .ok body
      | _, _ => .ok pbe }

/-- Key material of a profile protected by a master password: under the empty
password the metadata item decrypts to bytes without the check string. -/
def lockedProfile : GeckoKeyMaterial :=
  { globalSalt := [1, 2, 3], metaBytes := [48, 10, 0, 0], nssA11 := [48, 20],
    nssA102 := keyLin }

/-- Key material of a profile without a master password: the metadata item
decrypts to the check string. -/
def openProfile : GeckoKeyMaterial :=
  { globalSalt := [1, 2, 3], metaBytes := 48 :: passwordCheck,
    nssA11 := 48 :: List.replicate 30 7, nssA102 := keyLin }

/-! ## Theorems -/

/-! ### The loops -/

theorem WebkitPassword.login_body_eq (u : Utils) (d : Decrypt) (masterKey : Option Bytes) (now : Int)
    (row : LoginRow) (st : Run loginData) :
    WebkitPassword.body u d masterKey now row st =
      { out := st.out ++ [WebkitPassword.record u d masterKey now row],
        err := WebkitPassword.errAfter d masterKey row,
        trace := st.trace ++ WebkitPassword.effects d masterKey row } := by
  simp [WebkitPassword.body, WebkitPassword.record, WebkitPassword.errAfter,
    WebkitPassword.effects, List.append_assoc]

theorem WebkitCookie.cookie_body_eq (u : Utils) (d : Decrypt) (masterKey : Option Bytes)
    (row : CookieRow) (st : Run cookie) :
    WebkitCookie.body u d masterKey row st =
      { out := st.out ++ [WebkitCookie.record u d masterKey row],
        err := (decryptValue d masterKey (scanCookie row).encryptValue).1.2,
        trace := st.trace ++ WebkitCookie.effects d masterKey row } := by
  simp [WebkitCookie.body, WebkitCookie.record, WebkitCookie.effects, List.append_assoc]

theorem WebkitCreditCard.card_body_eq (d : Decrypt) (masterKey : Option Bytes)
    (row : CreditRow) (st : Run card) :
    WebkitCreditCard.body d masterKey row st =
      { out := st.out ++ [WebkitCreditCard.record d masterKey row],
        err := (decryptValue d masterKey (scanCredit row).encryptValue).1.2,
        trace := st.trace ++ WebkitCreditCard.effects d masterKey row } := by
  simp [WebkitCreditCard.body, WebkitCreditCard.record, WebkitCreditCard.effects,
    List.append_assoc]

theorem WebkitHistory.history_body_eq (u : Utils) (row : HistoryRow) (st : Run history) :
    WebkitHistory.body u row st =
      { out := st.out ++ [WebkitHistory.record u row], err := st.err,
        trace := st.trace ++ printIfErr (scanHistory row).err } := by
  simp [WebkitHistory.body, WebkitHistory.record]

theorem WebkitDownload.download_body_eq (u : Utils) (row : DownloadRow) (st : Run download) :
    WebkitDownload.body u row st =
      { out := st.out ++ [WebkitDownload.record u row], err := st.err,
        trace := st.trace ++ printIfErr (scanDownload row).err } := by
  simp [WebkitDownload.body, WebkitDownload.record]

/-- The login loop appends one record per row, stamped with the clock reading
of its iteration, and the effects of the rows in order. -/
theorem WebkitPassword.login_loop_eq (u : Utils) (d : Decrypt) (masterKey : Option Bytes)
    (clock : Nat → Int) (rs : List LoginRow) :
    ∀ (i : Nat) (st : Run loginData),
      (WebkitPassword.loop u d masterKey clock i rs st).out =
          st.out ++ List.zipWith (fun row n => WebkitPassword.record u d masterKey (clock n) row)
            rs (List.range' i rs.length)
        ∧ (WebkitPassword.loop u d masterKey clock i rs st).trace =
          st.trace ++ rs.flatMap (WebkitPassword.effects d masterKey) := by
  induction rs with
  | nil => intro i st; simp [WebkitPassword.loop]
  | cons row rest ih =>
    intro i st
    have h := ih (i + 1) (WebkitPassword.body u d masterKey (clock i) row st)
    rw [WebkitPassword.login_body_eq] at h
    simp only [WebkitPassword.loop, WebkitPassword.login_body_eq]
    refine ⟨?_, ?_⟩
    · rw [h.1]; simp [List.range'_succ, List.append_assoc]
    · rw [h.2]; simp [List.append_assoc]

theorem WebkitCookie.cookie_loop_eq (u : Utils) (d : Decrypt) (masterKey : Option Bytes)
    (rs : List CookieRow) :
    ∀ st : Run cookie,
      (WebkitCookie.loop u d masterKey rs st).out =
          st.out ++ rs.map (WebkitCookie.record u d masterKey)
        ∧ (WebkitCookie.loop u d masterKey rs st).trace =
          st.trace ++ rs.flatMap (WebkitCookie.effects d masterKey) := by
  induction rs with
  | nil => intro st; simp [WebkitCookie.loop]
  | cons row rest ih =>
    intro st
    have h := ih (WebkitCookie.body u d masterKey row st)
    rw [WebkitCookie.cookie_body_eq] at h
    simp only [WebkitCookie.loop, WebkitCookie.cookie_body_eq]
    refine ⟨?_, ?_⟩
    · rw [h.1]; simp [List.append_assoc]
    · rw [h.2]; simp [List.append_assoc]

theorem WebkitCreditCard.card_loop_eq (d : Decrypt) (masterKey : Option Bytes) (rs : List CreditRow) :
    ∀ st : Run card,
      (WebkitCreditCard.loop d masterKey rs st).out =
          st.out ++ rs.map (WebkitCreditCard.record d masterKey)
        ∧ (WebkitCreditCard.loop d masterKey rs st).trace =
          st.trace ++ rs.flatMap (WebkitCreditCard.effects d masterKey) := by
  induction rs with
  | nil => intro st; simp [WebkitCreditCard.loop]
  | cons row rest ih =>
    intro st
    have h := ih (WebkitCreditCard.body d masterKey row st)
    rw [WebkitCreditCard.card_body_eq] at h
    simp only [WebkitCreditCard.loop, WebkitCreditCard.card_body_eq]
    refine ⟨?_, ?_⟩
    · rw [h.1]; simp [List.append_assoc]
    · rw [h.2]; simp [List.append_assoc]

theorem WebkitHistory.history_loop_eq (u : Utils) (rs : List HistoryRow) :
    ∀ st : Run history,
      (WebkitHistory.loop u rs st).out = st.out ++ rs.map (WebkitHistory.record u)
        ∧ (WebkitHistory.loop u rs st).trace =
          st.trace ++ rs.flatMap (fun row => printIfErr (scanHistory row).err) := by
  induction rs with
  | nil => intro st; simp [WebkitHistory.loop]
  | cons row rest ih =>
    intro st
    have h := ih (WebkitHistory.body u row st)
    rw [WebkitHistory.history_body_eq] at h
    simp only [WebkitHistory.loop, WebkitHistory.history_body_eq]
    refine ⟨?_, ?_⟩
    · rw [h.1]; simp [List.append_assoc]
    · rw [h.2]; simp [List.append_assoc]

theorem WebkitDownload.download_loop_eq (u : Utils) (rs : List DownloadRow) :
    ∀ st : Run download,
      (WebkitDownload.loop u rs st).out = st.out ++ rs.map (WebkitDownload.record u)
        ∧ (WebkitDownload.loop u rs st).trace =
          st.trace ++ rs.flatMap (fun row => printIfErr (scanDownload row).err) := by
  induction rs with
  | nil => intro st; simp [WebkitDownload.loop]
  | cons row rest ih =>
    intro st
    have h := ih (WebkitDownload.body u row st)
    rw [WebkitDownload.download_body_eq] at h
    simp only [WebkitDownload.loop, WebkitDownload.download_body_eq]
    refine ⟨?_, ?_⟩
    · rw [h.1]; simp [List.append_assoc]
    · rw [h.2]; simp [List.append_assoc]

/-! ### One record per row -/

theorem WebkitPassword.login_parse_rows (u : Utils) (d : Decrypt) (masterKey : Option Bytes)
    (clock : Nat → Int) (rs : List LoginRow) (wp : List loginData) :
    WebkitPassword.parse u d (.rows rs) masterKey clock wp =
      { wp := wp ++ List.zipWith (fun row n => WebkitPassword.record u d masterKey (clock n) row)
          rs (List.range' 0 rs.length),
        ret := none,
        trace := rs.flatMap (WebkitPassword.effects d masterKey) } := by
  have h := WebkitPassword.login_loop_eq u d masterKey clock rs 0 { out := wp, err := none, trace := [] }
  simp only [WebkitPassword.parse, h.1, h.2, List.nil_append]

theorem WebkitCookie.cookie_parse_rows (u : Utils) (d : Decrypt) (masterKey : Option Bytes)
    (rs : List CookieRow) (wc : List cookie) :
    WebkitCookie.parse u d (.rows rs) masterKey wc =
      { wp := wc ++ rs.map (WebkitCookie.record u d masterKey), ret := none,
        trace := rs.flatMap (WebkitCookie.effects d masterKey) } := by
  have h := WebkitCookie.cookie_loop_eq u d masterKey rs { out := wc, err := none, trace := [] }
  simp only [WebkitCookie.parse, h.1, h.2, List.nil_append]

theorem WebkitCreditCard.card_parse_rows (d : Decrypt) (masterKey : Option Bytes)
    (rs : List CreditRow) (wc : List card) :
    WebkitCreditCard.parse d (.rows rs) masterKey wc =
      { wp := wc ++ rs.map (WebkitCreditCard.record d masterKey), ret := none,
        trace := rs.flatMap (WebkitCreditCard.effects d masterKey) } := by
  have h := WebkitCreditCard.card_loop_eq d masterKey rs { out := wc, err := none, trace := [] }
  simp only [WebkitCreditCard.parse, h.1, h.2, List.nil_append]

theorem WebkitHistory.history_parse_rows (u : Utils) (rs : List HistoryRow) (wh : List history) :
    WebkitHistory.parse u (.rows rs) wh =
      { wp := wh ++ rs.map (WebkitHistory.record u), ret := none,
        trace := rs.flatMap (fun row => printIfErr (scanHistory row).err) } := by
  have h := WebkitHistory.history_loop_eq u rs { out := wh, err := none, trace := [] }
  simp only [WebkitHistory.parse, h.1, h.2, List.nil_append]

theorem WebkitDownload.download_parse_rows (u : Utils) (rs : List DownloadRow) (wd : List download) :
    WebkitDownload.parse u (.rows rs) wd =
      { wp := wd ++ rs.map (WebkitDownload.record u), ret := none,
        trace := rs.flatMap (fun row => printIfErr (scanDownload row).err) } := by
  have h := WebkitDownload.download_loop_eq u rs { out := wd, err := none, trace := [] }
  simp only [WebkitDownload.parse, h.1, h.2, List.nil_append]

/-- Projecting the records of the login loop on a field that does not depend
on the clock gives a plain map over the rows. -/
theorem WebkitPassword.map_records {β : Type} (u : Utils) (d : Decrypt)
    (masterKey : Option Bytes) (clock : Nat → Int) (f : loginData → β) (g : LoginRow → β)
    (hfg : ∀ now row, f (WebkitPassword.record u d masterKey now row) = g row)
    (rs : List LoginRow) :
    ∀ i : Nat, (List.zipWith (fun row n => WebkitPassword.record u d masterKey (clock n) row)
      rs (List.range' i rs.length)).map f = rs.map g := by
  induction rs with
  | nil => intro i; simp
  | cons row rest ih => intro i; simp [List.range'_succ, hfg, ih (i + 1)]

/-- C1: when the rows were fetched, whatever the decryptor answers on each row,
`WebkitPassword.parse`, `WebkitCookie.parse` and `WebkitCreditCard.parse`
return nil, keep the records already collected and append one record per row
in fetch order, the i-th new record holding the columns scanned from the i-th
row. -/
theorem parse_one_record_per_row (u : Utils) (d : Decrypt) (masterKey : Option Bytes)
    (clock : Nat → Int) (logins : List LoginRow) (cookies : List CookieRow)
    (cards : List CreditRow) (wp : List loginData) (wc : List cookie) (wk : List card) :
    ((WebkitPassword.parse u d (.rows logins) masterKey clock wp).ret = none
      ∧ ∃ new, (WebkitPassword.parse u d (.rows logins) masterKey clock wp).wp = wp ++ new
          ∧ new.length = logins.length
          ∧ new.map loginData.plain = logins.map (fun r => (scanLogin r).plain))
    ∧ ((WebkitCookie.parse u d (.rows cookies) masterKey wc).ret = none
      ∧ ∃ new, (WebkitCookie.parse u d (.rows cookies) masterKey wc).wp = wc ++ new
          ∧ new.length = cookies.length
          ∧ new.map cookie.plain = cookies.map (fun r => (scanCookie r).plain))
    ∧ ((WebkitCreditCard.parse d (.rows cards) masterKey wk).ret = none
      ∧ ∃ new, (WebkitCreditCard.parse d (.rows cards) masterKey wk).wp = wk ++ new
          ∧ new.length = cards.length
          ∧ new.map card.plain = cards.map (fun r => (scanCredit r).plain)) := by
  refine ⟨?_, ?_, ?_⟩
  · rw [WebkitPassword.login_parse_rows]
    refine ⟨rfl, _, rfl, ?_, ?_⟩
    · simp
    · exact WebkitPassword.map_records u d masterKey clock _ _ (fun _ _ => rfl) logins 0
  · rw [WebkitCookie.cookie_parse_rows]
    refine ⟨rfl, _, rfl, ?_, ?_⟩
    · simp
    · simp [cookie.plain, CookieScan.plain, WebkitCookie.record]
  · rw [WebkitCreditCard.card_parse_rows]
    refine ⟨rfl, _, rfl, ?_, ?_⟩
    · simp
    · simp [card.plain, CreditScan.plain, WebkitCreditCard.record]

/-! ### Decryption of the secret column -/

theorem WebkitPassword.decryptPwd_nonempty (d : Decrypt) (masterKey : Option Bytes)
    (pwd : Bytes) (err : Option Error) (h : pwd ≠ []) :
    WebkitPassword.decryptPwd d masterKey pwd err =
      (assignResult (fieldDecryptor d masterKey pwd), [expectedCall masterKey pwd]) := by
  have hlen : pwd.length > 0 := List.length_pos.mpr h
  cases masterKey <;> simp [WebkitPassword.decryptPwd, hlen, fieldDecryptor, expectedCall]

theorem WebkitPassword.decryptPwd_empty (d : Decrypt) (masterKey : Option Bytes)
    (err : Option Error) :
    WebkitPassword.decryptPwd d masterKey [] err = (([], err), []) := by
  simp [WebkitPassword.decryptPwd]

theorem decryptValue_eq (d : Decrypt) (masterKey : Option Bytes) (ct : Bytes) :
    decryptValue d masterKey ct =
      (assignResult (fieldDecryptor d masterKey ct), [expectedCall masterKey ct]) := by
  cases masterKey <;> simp [decryptValue, fieldDecryptor, expectedCall]

theorem goString_nil : goString [] = "" := rfl

/-- C2: in a batch of login rows, the record emitted for a row with a
non-empty encrypted password has the empty string as `Password` when the
decryption of that row returns an error, and the returned plaintext when it
succeeds; the batch yields one record per row. -/
theorem WebkitPassword.parse_password (u : Utils) (d : Decrypt) (masterKey : Option Bytes)
    (clock : Nat → Int) (rs : List LoginRow) (wp : List loginData) (i : Nat)
    (hi : i < rs.length) (hpwd : (scanLogin rs[i]).pwd ≠ []) :
    (WebkitPassword.parse u d (.rows rs) masterKey clock wp).wp.length = wp.length + rs.length
    ∧ ∃ l, (WebkitPassword.parse u d (.rows rs) masterKey clock wp).wp[wp.length + i]? = some l
      ∧ (∀ e, fieldDecryptor d masterKey (scanLogin rs[i]).pwd = .error e → l.Password = "")
      ∧ (∀ p, fieldDecryptor d masterKey (scanLogin rs[i]).pwd = .ok p →
          l.Password = goString p) := by
  rw [WebkitPassword.login_parse_rows]
  have hmap := WebkitPassword.map_records u d masterKey clock (fun l => l.Password)
    (fun row => goString
      (WebkitPassword.decryptPwd d masterKey (scanLogin row).pwd (scanLogin row).err).1.1)
    (fun _ _ => rfl) rs 0
  generalize List.zipWith (fun row n => WebkitPassword.record u d masterKey (clock n) row)
    rs (List.range' 0 rs.length) = new at hmap
  have hlen : new.length = rs.length := by
    have := congrArg List.length hmap
    simpa using this
  have hi2 : i < new.length := by omega
  have hpass : new[i].Password = goString
      (WebkitPassword.decryptPwd d masterKey (scanLogin rs[i]).pwd (scanLogin rs[i]).err).1.1 := by
    have := congrArg (fun l => l[i]?) hmap
    simpa [hi, hi2] using this
  rw [WebkitPassword.decryptPwd_nonempty d masterKey _ _ hpwd] at hpass
  refine ⟨by simp [hlen], new[i], ?_, ?_, ?_⟩
  · rw [List.getElem?_append_right (by omega)]
    simp [hi2]
  · intro e he
    rw [hpass, he]
    rfl
  · intro p hp
    rw [hpass, hp]
    rfl

/-- Witness of C2: ten login rows, the fifth corrupted, give ten records; the
fifth has an empty password, the other nine the decrypted ones. -/
theorem WebkitPassword.parse_password_witness :
    ((scanLogin tenLogins[4]).pwd ≠ []
      ∧ (WebkitPassword.parse specUtils mockDecrypt (.rows tenLogins) (some [7])
          (fun _ => 1700000000) []).wp.length = 0 + 10
      ∧ ∃ l, (WebkitPassword.parse specUtils mockDecrypt (.rows tenLogins) (some [7])
          (fun _ => 1700000000) []).wp[0 + 4]? = some l
        ∧ (∀ e, fieldDecryptor mockDecrypt (some [7]) (scanLogin tenLogins[4]).pwd = .error e →
            l.Password = "")
        ∧ (∀ p, fieldDecryptor mockDecrypt (some [7]) (scanLogin tenLogins[4]).pwd = .ok p →
            l.Password = goString p))
    ∧ fieldDecryptor mockDecrypt (some [7]) (scanLogin tenLogins[4]).pwd
        = .error "message authentication failed"
    ∧ fieldDecryptor mockDecrypt (some [7]) (scanLogin tenLogins[0]).pwd = .ok [97]
    ∧ (WebkitPassword.parse specUtils mockDecrypt (.rows tenLogins) (some [7])
          (fun _ => 1700000000) []).wp.map (fun l => l.Password)
        = ["a", "b", "c", "d", "", "f", "g", "h", "i", "j"] :=
  ⟨⟨by decide,
    WebkitPassword.parse_password specUtils mockDecrypt (some [7]) (fun _ => 1700000000)
      tenLogins [] 4 (by decide) (by decide)⟩, rfl, rfl, rfl⟩

/-! ### Which decryptor is called -/

theorem filter_flatMap_eq {α β : Type} (p : β → Bool) (f h : α → List β)
    (hh : ∀ a, (f a).filter p = h a) (l : List α) :
    (l.flatMap f).filter p = l.flatMap h := by
  induction l with
  | nil => simp
  | cons a rest ih => simp [List.flatMap_cons, List.filter_append, hh, ih]

theorem flatMap_singleton_eq_map {α β : Type} (g : α → β) (l : List α) :
    l.flatMap (fun a => [g a]) = l.map g := by
  induction l with
  | nil => simp
  | cons a rest ih => simp [List.flatMap_cons, ih]

theorem flatMap_guard_eq_map {α β : Type} (q : α → Prop) [DecidablePred q] (g : α → β)
    (l : List α) :
    l.flatMap (fun a => if q a then [g a] else []) = (l.filter (fun a => decide (q a))).map g := by
  induction l with
  | nil => simp
  | cons a rest ih =>
    by_cases hq : q a <;> simp [List.flatMap_cons, List.filter_cons, hq, ih]

theorem printIfErr_calls (err : Option Error) :
    (printIfErr err).filter Event.isDecryptCall = [] := by
  cases err <;> simp [printIfErr, Event.isDecryptCall]

theorem logIfErr_calls (err : Option Error) :
    (logIfErr err).filter Event.isDecryptCall = [] := by
  cases err <;> simp [logIfErr, Event.isDecryptCall]

theorem expectedCall_isDecryptCall (masterKey : Option Bytes) (ct : Bytes) :
    (expectedCall masterKey ct).isDecryptCall = true := by
  cases masterKey <;> rfl

theorem WebkitCookie.effects_calls (d : Decrypt) (masterKey : Option Bytes) (row : CookieRow) :
    (WebkitCookie.effects d masterKey row).filter Event.isDecryptCall =
      [expectedCall masterKey (scanCookie row).encryptValue] := by
  simp [WebkitCookie.effects, decryptValue_eq, List.filter_append, printIfErr_calls,
    expectedCall_isDecryptCall]

theorem WebkitCreditCard.card_effects_calls (d : Decrypt) (masterKey : Option Bytes)
    (row : CreditRow) :
    (WebkitCreditCard.effects d masterKey row).filter Event.isDecryptCall =
      [expectedCall masterKey (scanCredit row).encryptValue] := by
  simp [WebkitCreditCard.effects, decryptValue_eq, List.filter_append, printIfErr_calls,
    expectedCall_isDecryptCall]

theorem WebkitPassword.login_effects_calls (d : Decrypt) (masterKey : Option Bytes)
    (row : LoginRow) :
    (WebkitPassword.effects d masterKey row).filter Event.isDecryptCall =
      if (scanLogin row).pwd.length > 0 then [expectedCall masterKey (scanLogin row).pwd]
      else [] := by
  have hdiag : ∀ o : Option Error,
      (match o with
        | some e => [Event.fmtPrintf (scanLogin row).url e]
        | none => []).filter Event.isDecryptCall = [] := by
    intro o; cases o <;> simp [Event.isDecryptCall]
  by_cases h : (scanLogin row).pwd = []
  · simp [WebkitPassword.effects, h, WebkitPassword.decryptPwd_empty, List.filter_append,
      logIfErr_calls, hdiag]
  · have hlen : (scanLogin row).pwd.length > 0 := List.length_pos.mpr h
    simp [WebkitPassword.effects, WebkitPassword.decryptPwd_nonempty d masterKey _ _ h,
      List.filter_append, logIfErr_calls, hdiag, expectedCall_isDecryptCall, hlen]

/-- C7: the decryptor calls made by the cookie and credit-card parsers are one
call per row, and those of the login parser one call per row with a non-empty
encrypted password: `decrypt.DPAPI` on the scanned ciphertext when the master
key is nil, `decrypt.ChromePass` with the master key on it otherwise; the
secret stored in the record is the result of that call. -/
theorem decryptor_dispatch (u : Utils) (d : Decrypt) (clock : Nat → Int) (key : Bytes)
    (logins : List LoginRow) (cookies : List CookieRow) (cards : List CreditRow)
    (wp : List loginData) (wc : List cookie) (wk : List card) :
    ((WebkitCookie.parse u d (.rows cookies) none wc).trace.filter Event.isDecryptCall
        = cookies.map (fun r => Event.callDPAPI (scanCookie r).encryptValue)
      ∧ (WebkitCookie.parse u d (.rows cookies) none wc).wp.map (fun c => c.Value)
        = wc.map (fun c => c.Value)
          ++ cookies.map (fun r => goString (assignResult (d.DPAPI (scanCookie r).encryptValue)).1)
      ∧ (WebkitCookie.parse u d (.rows cookies) (some key) wc).trace.filter Event.isDecryptCall
        = cookies.map (fun r => Event.callChromePass key (scanCookie r).encryptValue)
      ∧ (WebkitCookie.parse u d (.rows cookies) (some key) wc).wp.map (fun c => c.Value)
        = wc.map (fun c => c.Value)
          ++ cookies.map
            (fun r => goString (assignResult (d.ChromePass key (scanCookie r).encryptValue)).1))
    ∧ ((WebkitCreditCard.parse d (.rows cards) none wk).trace.filter Event.isDecryptCall
        = cards.map (fun r => Event.callDPAPI (scanCredit r).encryptValue)
      ∧ (WebkitCreditCard.parse d (.rows cards) none wk).wp.map (fun c => c.CardNumber)
        = wk.map (fun c => c.CardNumber)
          ++ cards.map (fun r => goString (assignResult (d.DPAPI (scanCredit r).encryptValue)).1)
      ∧ (WebkitCreditCard.parse d (.rows cards) (some key) wk).trace.filter Event.isDecryptCall
        = cards.map (fun r => Event.callChromePass key (scanCredit r).encryptValue)
      ∧ (WebkitCreditCard.parse d (.rows cards) (some key) wk).wp.map (fun c => c.CardNumber)
        = wk.map (fun c => c.CardNumber)
          ++ cards.map
            (fun r => goString (assignResult (d.ChromePass key (scanCredit r).encryptValue)).1))
    ∧ ((WebkitPassword.parse u d (.rows logins) none clock wp).trace.filter Event.isDecryptCall
        = (logins.filter (fun r => decide ((scanLogin r).pwd.length > 0))).map
            (fun r => Event.callDPAPI (scanLogin r).pwd)
      ∧ (WebkitPassword.parse u d (.rows logins) (some key) clock wp).trace.filter
          Event.isDecryptCall
        = (logins.filter (fun r => decide ((scanLogin r).pwd.length > 0))).map
            (fun r => Event.callChromePass key (scanLogin r).pwd)) := by
  refine ⟨⟨?_, ?_, ?_, ?_⟩, ⟨?_, ?_, ?_, ?_⟩, ?_, ?_⟩
  · rw [WebkitCookie.cookie_parse_rows,
      filter_flatMap_eq _ _ _ (WebkitCookie.effects_calls d none), flatMap_singleton_eq_map]
    rfl
  · rw [WebkitCookie.cookie_parse_rows]
    simp [WebkitCookie.record, decryptValue_eq, fieldDecryptor]
  · rw [WebkitCookie.cookie_parse_rows,
      filter_flatMap_eq _ _ _ (WebkitCookie.effects_calls d (some key)), flatMap_singleton_eq_map]
    rfl
  · rw [WebkitCookie.cookie_parse_rows]
    simp [WebkitCookie.record, decryptValue_eq, fieldDecryptor]
  · rw [WebkitCreditCard.card_parse_rows,
      filter_flatMap_eq _ _ _ (WebkitCreditCard.card_effects_calls d none),
      flatMap_singleton_eq_map]
    rfl
  · rw [WebkitCreditCard.card_parse_rows]
    simp [WebkitCreditCard.record, decryptValue_eq, fieldDecryptor]
  · rw [WebkitCreditCard.card_parse_rows,
      filter_flatMap_eq _ _ _ (WebkitCreditCard.card_effects_calls d (some key)),
      flatMap_singleton_eq_map]
    rfl
  · rw [WebkitCreditCard.card_parse_rows]
    simp [WebkitCreditCard.record, decryptValue_eq, fieldDecryptor]
  · rw [WebkitPassword.login_parse_rows,
      filter_flatMap_eq _ _ _ (WebkitPassword.login_effects_calls d none)]
    exact flatMap_guard_eq_map (fun r => (scanLogin r).pwd.length > 0)
      (fun r => Event.callDPAPI (scanLogin r).pwd) logins
  · rw [WebkitPassword.login_parse_rows,
      filter_flatMap_eq _ _ _ (WebkitPassword.login_effects_calls d (some key))]
    exact flatMap_guard_eq_map (fun r => (scanLogin r).pwd.length > 0)
      (fun r => Event.callChromePass key (scanLogin r).pwd) logins

/-! ### Rows with an empty encrypted password -/

theorem WebkitPassword.loop_append (u : Utils) (d : Decrypt) (masterKey : Option Bytes)
    (clock : Nat → Int) (pre post : List LoginRow) :
    ∀ (i : Nat) (st : Run loginData),
      WebkitPassword.loop u d masterKey clock i (pre ++ post) st =
        WebkitPassword.loop u d masterKey clock (i + pre.length) post
          (WebkitPassword.loop u d masterKey clock i pre st) := by
  induction pre with
  | nil => intro i st; simp [WebkitPassword.loop]
  | cons row rest ih =>
    intro i st
    have h := ih (i + 1) (WebkitPassword.body u d masterKey (clock i) row st)
    have hlen : i + 1 + rest.length = i + (rest.length + 1) := by omega
    rw [hlen] at h
    simpa only [List.cons_append, WebkitPassword.loop, List.length_cons] using h

/-- Parsing a batch that ends with `row` is parsing the rows before it and
then running the loop body once on `row`. -/
theorem WebkitPassword.parse_snoc (u : Utils) (d : Decrypt) (masterKey : Option Bytes)
    (clock : Nat → Int) (pre : List LoginRow) (row : LoginRow) (wp : List loginData) :
    WebkitPassword.parse u d (.rows (pre ++ [row])) masterKey clock wp =
      { wp := (WebkitPassword.parse u d (.rows pre) masterKey clock wp).wp
          ++ [WebkitPassword.record u d masterKey (clock pre.length) row],
        ret := none,
        trace := (WebkitPassword.parse u d (.rows pre) masterKey clock wp).trace
          ++ WebkitPassword.effects d masterKey row } := by
  simp only [WebkitPassword.parse, WebkitPassword.loop_append, WebkitPassword.loop,
    WebkitPassword.login_body_eq, Nat.zero_add]

theorem WebkitPassword.errAfter_cases (d : Decrypt) (masterKey : Option Bytes) (row : LoginRow)
    (e : Error) (h : WebkitPassword.errAfter d masterKey row = some e) :
    (scanLogin row).err = some e
      ∨ ((scanLogin row).pwd ≠ []
        ∧ fieldDecryptor d masterKey (scanLogin row).pwd = .error e) := by
  by_cases hp : (scanLogin row).pwd = []
  · left
    simpa [WebkitPassword.errAfter, hp, WebkitPassword.decryptPwd_empty] using h
  · right
    refine ⟨hp, ?_⟩
    rw [WebkitPassword.errAfter, WebkitPassword.decryptPwd_nonempty d masterKey _ _ hp] at h
    cases hf : fieldDecryptor d masterKey (scanLogin row).pwd with
    | error e2 =>
      rw [hf] at h
      simp [assignResult] at h
      rw [h]
    | ok v =>
      rw [hf] at h
      simp [assignResult] at h

/-- C10: a login row that scans without error and has an empty
encrypted-password column adds no effect at all to the run (no decryptor call,
no diagnostic), whatever rows came before it and whatever the master key is,
and its record has the empty `Password`; for any row, every diagnostic the row
adds carries that row's own scan error or that row's own decryption error. -/
theorem WebkitPassword.parse_empty_password (u : Utils) (d : Decrypt) (masterKey : Option Bytes)
    (clock : Nat → Int) (pre : List LoginRow) (row : LoginRow) (wp : List loginData) :
    ((scanLogin row).err = none → (scanLogin row).pwd = [] →
      (WebkitPassword.parse u d (.rows (pre ++ [row])) masterKey clock wp).trace
          = (WebkitPassword.parse u d (.rows pre) masterKey clock wp).trace
        ∧ ∃ l, (WebkitPassword.parse u d (.rows (pre ++ [row])) masterKey clock wp).wp
              = (WebkitPassword.parse u d (.rows pre) masterKey clock wp).wp ++ [l]
            ∧ l.Password = "")
    ∧ ∃ ev, (WebkitPassword.parse u d (.rows (pre ++ [row])) masterKey clock wp).trace
          = (WebkitPassword.parse u d (.rows pre) masterKey clock wp).trace ++ ev
        ∧ ∀ x ∈ ev, x.isDiagnostic = true →
          ∃ e, (x = Event.logPrintln e ∧ (scanLogin row).err = some e)
            ∨ (x = Event.fmtPrintf (scanLogin row).url e
              ∧ ((scanLogin row).err = some e
                ∨ ((scanLogin row).pwd ≠ []
                  ∧ fieldDecryptor d masterKey (scanLogin row).pwd = .error e))) := by
  rw [WebkitPassword.parse_snoc]
  refine ⟨?_, ?_⟩
  · intro hscan hpwd
    refine ⟨?_, _, rfl, ?_⟩
    · simp [WebkitPassword.effects, WebkitPassword.errAfter, hscan, hpwd,
        WebkitPassword.decryptPwd_empty, logIfErr]
    · simp [WebkitPassword.record, hpwd, WebkitPassword.decryptPwd_empty, goString_nil]
  · refine ⟨_, rfl, ?_⟩
    intro x hx hdiag
    simp only [WebkitPassword.effects, List.mem_append] at hx
    rcases hx with (hx | hx) | hx
    · cases hs : (scanLogin row).err with
      | none => simp [hs, logIfErr] at hx
      | some e =>
        simp [hs, logIfErr] at hx
        exact ⟨e, Or.inl ⟨hx, rfl⟩⟩
    · exfalso
      by_cases hp : (scanLogin row).pwd = []
      · simp [hp, WebkitPassword.decryptPwd_empty] at hx
      · rw [WebkitPassword.decryptPwd_nonempty d masterKey _ _ hp] at hx
        simp at hx
        rw [hx] at hdiag
        cases masterKey <;> simp [expectedCall, Event.isDiagnostic] at hdiag
    · cases ha : WebkitPassword.errAfter d masterKey row with
      | none => simp [ha] at hx
      | some e =>
        simp [ha] at hx
        exact ⟨e, Or.inr ⟨hx, WebkitPassword.errAfter_cases d masterKey row e ha⟩⟩

/-- Witness of C10: after a row whose decryption failed, a well-formed row with
an empty password column adds no effect and yields an empty password. -/
theorem WebkitPassword.parse_empty_password_witness :
    (scanLogin emptyPwdLogin).err = none
    ∧ (scanLogin emptyPwdLogin).pwd = []
    ∧ ((WebkitPassword.parse specUtils mockDecrypt (.rows ([corruptLogin] ++ [emptyPwdLogin]))
          none (fun _ => 1700000000) []).trace
        = (WebkitPassword.parse specUtils mockDecrypt (.rows [corruptLogin]) none
            (fun _ => 1700000000) []).trace
      ∧ ∃ l, (WebkitPassword.parse specUtils mockDecrypt
            (.rows ([corruptLogin] ++ [emptyPwdLogin])) none (fun _ => 1700000000) []).wp
          = (WebkitPassword.parse specUtils mockDecrypt (.rows [corruptLogin]) none
              (fun _ => 1700000000) []).wp ++ [l]
          ∧ l.Password = "")
    ∧ (WebkitPassword.parse specUtils mockDecrypt (.rows [corruptLogin]) none
          (fun _ => 1700000000) []).trace
        = [Event.callDPAPI [0, 101], Event.fmtPrintf "https://example.org" "unprotect failed"] :=
  ⟨rfl, rfl,
    (WebkitPassword.parse_empty_password specUtils mockDecrypt none (fun _ => 1700000000)
      [corruptLogin] emptyPwdLogin []).1 rfl rfl,
    rfl⟩

/-! ### Diagnostics -/

/-- C3: on a cookie row whose decryption returns an error, `WebkitCookie.parse`
prints nothing: the run has no diagnostic and its record and diagnostics are
those of a row whose value decrypts to the empty string, while the login and
credit-card parsers print the error of the same corrupted ciphertext. -/
theorem WebkitCookie.parse_decrypt_error_silent :
    fieldDecryptor mockDecrypt (some [7]) (scanCookie corruptCookie).encryptValue
        = .error "message authentication failed"
    ∧ fieldDecryptor mockDecrypt (some [7]) (scanCookie emptyCookie).encryptValue = .ok []
    ∧ (WebkitCookie.parse specUtils mockDecrypt (.rows [corruptCookie]) (some [7]) []).trace
        = [Event.callChromePass [7] [0, 101]]
    ∧ (WebkitCookie.parse specUtils mockDecrypt (.rows [corruptCookie]) (some [7])
          []).trace.filter Event.isDiagnostic = []
    ∧ (WebkitCookie.parse specUtils mockDecrypt (.rows [corruptCookie]) (some [7]) []).wp.map
          (fun c => c.Value) = [""]
    ∧ (WebkitCookie.parse specUtils mockDecrypt (.rows [emptyCookie]) (some [7]) []).wp.map
          (fun c => c.Value) = [""]
    ∧ (WebkitCookie.parse specUtils mockDecrypt (.rows [emptyCookie]) (some [7])
          []).trace.filter Event.isDiagnostic = []
    ∧ (WebkitPassword.parse specUtils mockDecrypt (.rows [corruptLogin]) (some [7])
          (fun _ => 1700000000) []).trace.filter Event.isDiagnostic
        = [Event.fmtPrintf "https://example.org" "message authentication failed"]
    ∧ (WebkitCreditCard.parse mockDecrypt (.rows [corruptCard]) (some [7])
          []).trace.filter Event.isDiagnostic
        = [Event.fmtPrintln "message authentication failed"] :=
  ⟨rfl, rfl, rfl, rfl, rfl, rfl, rfl, rfl, rfl⟩

/-- C4: a row that fails to scan is not skipped.  Each of the five Webkit
parsers prints the scan error and then appends a record for the row, built
from the columns scanned before the failure and zero values after it. -/
theorem parse_keeps_malformed_row :
    ((scanLogin malformedLogin).err = some nullString
      ∧ (WebkitPassword.parse specUtils mockDecrypt (.rows [malformedLogin]) (some [7])
          (fun _ => 1700000000) []).wp
        = [{ UserName := "", encryptPass := [], encryptUser := [], Password := "",
             LoginUrl := "https://example.org", CreateDate := specUtils.TimeStampFormat 0 }]
      ∧ (WebkitPassword.parse specUtils mockDecrypt (.rows [malformedLogin]) (some [7])
          (fun _ => 1700000000) []).trace
        = [Event.logPrintln nullString, Event.fmtPrintf "https://example.org" nullString])
    ∧ ((scanCookie malformedCookie).err = some nullString
      ∧ (WebkitCookie.parse specUtils mockDecrypt (.rows [malformedCookie]) (some [7]) []).wp
        = [{ Host := "", Path := "", KeyName := "sid", encryptValue := [1, 97], Value := "a",
             IsSecure := false, IsHTTPOnly := false, HasExpire := false, IsPersistent := false,
             CreateDate := specUtils.TimeEpochFormat 0,
             ExpireDate := specUtils.TimeEpochFormat 0 }]
      ∧ (WebkitCookie.parse specUtils mockDecrypt (.rows [malformedCookie]) (some [7])
          []).trace.filter Event.isDiagnostic
        = [Event.fmtPrintln nullString])
    ∧ ((scanHistory malformedHistory).err = some nullString
      ∧ (WebkitHistory.parse specUtils (.rows [malformedHistory]) []).wp
        = [{ Title := "", Url := "https://example.org", VisitCount := 0,
             LastVisitTime := specUtils.TimeEpochFormat 0 }]
      ∧ (WebkitHistory.parse specUtils (.rows [malformedHistory]) []).trace
        = [Event.fmtPrintln nullString])
    ∧ ((scanDownload malformedDownload).err = some nullInt
      ∧ (WebkitDownload.parse specUtils (.rows [malformedDownload]) []).wp
        = [{ TargetPath := "/tmp/a.zip", Url := "https://example.org/a.zip", TotalBytes := 0,
             StartTime := specUtils.TimeEpochFormat 0, EndTime := specUtils.TimeEpochFormat 0,
             MimeType := "" }]
      ∧ (WebkitDownload.parse specUtils (.rows [malformedDownload]) []).trace
        = [Event.fmtPrintln nullInt])
    ∧ ((scanCredit malformedCard).err = some nullString
      ∧ (WebkitCreditCard.parse mockDecrypt (.rows [malformedCard]) (some [7]) []).wp
        = [{ GUID := "g-1", Name := "", ExpirationYear := "", ExpirationMonth := "",
             CardNumber := "" }]
      ∧ (WebkitCreditCard.parse mockDecrypt (.rows [malformedCard]) (some [7])
          []).trace.filter Event.isDiagnostic
        = [Event.fmtPrintln nullString, Event.fmtPrintln "message authentication failed"]) :=
  ⟨⟨rfl, rfl, rfl⟩, ⟨rfl, rfl, rfl⟩, ⟨rfl, rfl, rfl⟩, ⟨rfl, rfl, rfl⟩, ⟨rfl, rfl, rfl⟩⟩

/-! ### Bookmark trees -/

mutual
/-- The records `getBookmarkChildren` appends are those of the nodes reached
from the root through typed nodes only, in pre-order. -/
theorem getBookmarkChildren_visited (u : Utils) :
    ∀ (value : Result) (wb : List bookmark),
      (getBookmarkChildren u value wb).2 = wb ++ (Result.visited value).map (toBookmark u)
  | .mk none _ _ _ _ _, wb => by simp [getBookmarkChildren, Result.visited]
  | .mk (some t) i n x d .missing, wb => by
    simp [getBookmarkChildren, Result.visited, Children.visited, toBookmark, Result.id,
      Result.name, Result.url, Result.date_added, Result.type]
  | .mk (some t) i n x d .notArray, wb => by
    simp [getBookmarkChildren, Result.visited, Children.visited, toBookmark, Result.id,
      Result.name, Result.url, Result.date_added, Result.type]
  | .mk (some t) i n x d (.array elems), wb => by
    simp only [getBookmarkChildren, Result.visited, Children.visited]
    rw [range_visited u elems]
    simp [toBookmark, Result.id, Result.name, Result.url, Result.date_added, Result.type]
/-- The loop over a `children` array appends the records of its subtrees in
array order. -/
theorem range_visited (u : Utils) :
    ∀ (elems : List Result) (acc : Children × List bookmark),
      (getBookmarkChildren.range u elems acc).2 = acc.2 ++ (visitedList elems).map (toBookmark u)
  | [], acc => by simp [getBookmarkChildren.range, visitedList]
  | v :: rest, acc => by
    simp only [getBookmarkChildren.range, visitedList]
    rw [range_visited u rest, getBookmarkChildren_visited u v]
    simp [List.append_assoc]
end

mutual
theorem visited_of_allTyped :
    ∀ value : Result, Result.allTyped value = true → Result.visited value = Result.preorder value
  | .mk none _ _ _ _ _, h => by simp [Result.allTyped] at h
  | .mk (some t) i n x d .missing, _ => by
    simp [Result.visited, Result.preorder, Children.visited, Children.preorder]
  | .mk (some t) i n x d .notArray, _ => by
    simp [Result.visited, Result.preorder, Children.visited, Children.preorder]
  | .mk (some t) i n x d (.array elems), h => by
    have h2 : allTypedList elems = true := by
      simpa [Result.allTyped, Children.allTyped] using h
    simp [Result.visited, Result.preorder, Children.visited, Children.preorder,
      visitedList_of_allTyped elems h2]
theorem visitedList_of_allTyped :
    ∀ elems : List Result, allTypedList elems = true → visitedList elems = preorderList elems
  | [], _ => by simp [visitedList, preorderList]
  | v :: rest, h => by
    have h2 : Result.allTyped v = true ∧ allTypedList rest = true := by
      simpa [allTypedList] using h
    simp [visitedList, preorderList, visited_of_allTyped v h2.1,
      visitedList_of_allTyped rest h2.2]
end

/-- C5: on a bookmark tree in which every node carries a type marker,
`getBookmarkChildren` keeps the records already collected as a prefix and
appends the records of the nodes (id, name, url, type, converted date_added) in
pre-order, one per node. -/
theorem getBookmarkChildren_preorder (u : Utils) (value : Result) (wb : List bookmark)
    (h : Result.allTyped value = true) :
    (getBookmarkChildren u value wb).2 = wb ++ (Result.preorder value).map (toBookmark u) := by
  rw [getBookmarkChildren_visited, visited_of_allTyped value h]

/-- Witness of C5: the five nodes of a typed tree of three levels come out in
pre-order behind the record already collected. -/
theorem getBookmarkChildren_preorder_witness :
    Result.allTyped typedTree = true
    ∧ (getBookmarkChildren specUtils typedTree [toBookmark specUtils (urlNode 9)]).2
        = [toBookmark specUtils (urlNode 9)]
          ++ (Result.preorder typedTree).map (toBookmark specUtils)
    ∧ ((getBookmarkChildren specUtils typedTree [toBookmark specUtils (urlNode 9)]).2).map
          (fun b => b.ID) = [9, 1, 2, 3, 4, 5] :=
  ⟨rfl, getBookmarkChildren_preorder specUtils typedTree [toBookmark specUtils (urlNode 9)] rfl,
    rfl⟩

/-- Counterexample to C6: in a tree of three levels whose middle node has no
type marker, the typed children of that node are not visited; only the root
and the typed sibling of the middle node are recorded. -/
theorem getBookmarkChildren_skips_untyped_subtree :
    (getBookmarkChildren specUtils untypedMiddleTree []).2
        = [toBookmark specUtils untypedMiddleTree, toBookmark specUtils (urlNode 5)]
    ∧ toBookmark specUtils (urlNode 3) ∉ (getBookmarkChildren specUtils untypedMiddleTree []).2
    ∧ toBookmark specUtils (urlNode 4) ∉ (getBookmarkChildren specUtils untypedMiddleTree []).2 :=
  ⟨rfl, by decide, by decide⟩

/-- C6 as amended: a node without a type marker contributes no record and its
children are not visited, so `getBookmarkChildren` leaves the collection as it
was; on any tree the appended records are those of the nodes reached from the
root through typed nodes only, in pre-order. -/
theorem getBookmarkChildren_untyped (u : Utils) (id : Int) (name url : String)
    (date_added : Int) (children : Children) (value : Result) (wb : List bookmark) :
    getBookmarkChildren u (.mk none id name url date_added children) wb = (children, wb)
    ∧ (getBookmarkChildren u value wb).2 = wb ++ (Result.visited value).map (toBookmark u)
    ∧ Result.visited (.mk none id name url date_added children) = [] :=
  ⟨by simp [getBookmarkChildren], getBookmarkChildren_visited u value wb,
    by simp [Result.visited]⟩

/-! ### Timestamps -/

theorem zipWith_range_congr {α β : Type} (f g : α → Nat → β) (rs : List α) :
    ∀ i : Nat, (∀ (j : Nat) (hj : j < rs.length), f rs[j] (i + j) = g rs[j] (i + j)) →
      List.zipWith f rs (List.range' i rs.length) = List.zipWith g rs (List.range' i rs.length) := by
  induction rs with
  | nil => intro i _; simp
  | cons row rest ih =>
    intro i h
    have h0 := h 0 (by simp)
    have hrest : ∀ (j : Nat) (hj : j < rest.length),
        f rest[j] (i + 1 + j) = g rest[j] (i + 1 + j) := by
      intro j hj
      have := h (j + 1) (by simp [hj])
      have he : i + (j + 1) = i + 1 + j := by omega
      simpa [he] using this
    simp only [List.length_cons, List.range'_succ, List.zipWith_cons_cons]
    simp only [List.getElem_cons_zero, Nat.add_zero] at h0
    rw [h0, ih (i + 1) hrest]

theorem WebkitPassword.record_same_side (u : Utils) (d : Decrypt) (masterKey : Option Bytes)
    (now1 now2 : Int) (row : LoginRow)
    (h : (scanLogin row).create > now1 ↔ (scanLogin row).create > now2) :
    WebkitPassword.record u d masterKey now1 row = WebkitPassword.record u d masterKey now2 row := by
  by_cases h1 : (scanLogin row).create > now1
  · have h2 := h.mp h1
    simp [WebkitPassword.record, h1, h2]
  · have h2 : ¬ (scanLogin row).create > now2 := fun hc => h1 (h.mpr hc)
    simp [WebkitPassword.record, h1, h2]

/-- Counterexample to C9: the same login row, read at two clock readings one
second apart, gets two different values of `CreateDate`, one from each
conversion. -/
theorem WebkitPassword.parse_clock_dependent :
    (WebkitPassword.parse specUtils mockDecrypt (.rows [emptyPwdLogin]) none
        (fun _ => 1609459199) []).wp.map (fun l => l.CreateDate)
      = [specUtils.TimeEpochFormat 1609459200]
    ∧ (WebkitPassword.parse specUtils mockDecrypt (.rows [emptyPwdLogin]) none
        (fun _ => 1609459200) []).wp.map (fun l => l.CreateDate)
      = [specUtils.TimeStampFormat 1609459200]
    ∧ (WebkitPassword.parse specUtils mockDecrypt (.rows [emptyPwdLogin]) none
        (fun _ => 1609459199) []).wp.map (fun l => l.CreateDate)
      ≠ (WebkitPassword.parse specUtils mockDecrypt (.rows [emptyPwdLogin]) none
        (fun _ => 1609459200) []).wp.map (fun l => l.CreateDate) :=
  ⟨rfl, rfl, by decide⟩

/-- C9 as amended: `WebkitPassword.parse` converts the created-time `t` of a
row with the microseconds-since-1601 conversion when `t` exceeds the clock
reading of its iteration and with the Unix-seconds conversion otherwise, so two
clocks whose readings lie on the same side of `t` for every row give the same
result; the cookie, history, download and bookmark timestamps always go through
the microseconds-since-1601 conversion. -/
theorem timestamp_conversion (u : Utils) (d : Decrypt) (masterKey : Option Bytes)
    (clock1 clock2 : Nat → Int) (logins : List LoginRow) (wp : List loginData)
    (cookies : List CookieRow) (wc : List cookie) (visits : List HistoryRow) (wh : List history)
    (files : List DownloadRow) (wd : List download) (value : Result) (wb : List bookmark)
    (hside : ∀ (i : Nat) (hi : i < logins.length),
      ((scanLogin logins[i]).create > clock1 i ↔ (scanLogin logins[i]).create > clock2 i)) :
    WebkitPassword.parse u d (.rows logins) masterKey clock1 wp
        = WebkitPassword.parse u d (.rows logins) masterKey clock2 wp
    ∧ (WebkitPassword.parse u d (.rows logins) masterKey clock1 wp).wp.map (fun l => l.CreateDate)
        = wp.map (fun l => l.CreateDate)
          ++ List.zipWith (fun row n =>
              if (scanLogin row).create > clock1 n then u.TimeEpochFormat (scanLogin row).create
              else u.TimeStampFormat (scanLogin row).create) logins (List.range' 0 logins.length)
    ∧ (WebkitCookie.parse u d (.rows cookies) masterKey wc).wp.map
          (fun c => (c.CreateDate, c.ExpireDate))
        = wc.map (fun c => (c.CreateDate, c.ExpireDate))
          ++ cookies.map (fun r => (u.TimeEpochFormat (scanCookie r).createDate,
              u.TimeEpochFormat (scanCookie r).expireDate))
    ∧ (WebkitHistory.parse u (.rows visits) wh).wp.map (fun h => h.LastVisitTime)
        = wh.map (fun h => h.LastVisitTime)
          ++ visits.map (fun r => u.TimeEpochFormat (scanHistory r).lastVisitTime)
    ∧ (WebkitDownload.parse u (.rows files) wd).wp.map (fun x => (x.StartTime, x.EndTime))
        = wd.map (fun x => (x.StartTime, x.EndTime))
          ++ files.map (fun r => (u.TimeEpochFormat (scanDownload r).startTime,
              u.TimeEpochFormat (scanDownload r).endTime))
    ∧ ((getBookmarkChildren u value wb).2).map (fun b => b.DateAdded)
        = wb.map (fun b => b.DateAdded)
          ++ (Result.visited value).map (fun v => u.TimeEpochFormat v.date_added) := by
  refine ⟨?_, ?_, ?_, ?_, ?_, ?_⟩
  · rw [WebkitPassword.login_parse_rows, WebkitPassword.login_parse_rows]
    have hz := zipWith_range_congr
      (fun row n => WebkitPassword.record u d masterKey (clock1 n) row)
      (fun row n => WebkitPassword.record u d masterKey (clock2 n) row) logins 0
      (by
        intro j hj
        simp only [Nat.zero_add]
        exact WebkitPassword.record_same_side u d masterKey _ _ _ (hside j hj))
    rw [hz]
  · rw [WebkitPassword.login_parse_rows]
    simp only [List.map_append, List.map_zipWith]
    rfl
  · rw [WebkitCookie.cookie_parse_rows]
    simp [WebkitCookie.record]
  · rw [WebkitHistory.history_parse_rows]
    simp [WebkitHistory.record]
  · rw [WebkitDownload.download_parse_rows]
    simp [WebkitDownload.record]
  · rw [getBookmarkChildren_visited]
    simp [toBookmark]

/-- Witness of C9 as amended: two clocks one second apart, both later than the
created-time of the first row and both earlier than that of the second. -/
theorem timestamp_conversion_witness :
    (∀ (i : Nat) (hi : i < [emptyPwdLogin, goodLogin 97].length),
      ((scanLogin [emptyPwdLogin, goodLogin 97][i]).create > (fun _ => 1700000000) i
        ↔ (scanLogin [emptyPwdLogin, goodLogin 97][i]).create > (fun _ => 1700000001) i))
    ∧ WebkitPassword.parse specUtils mockDecrypt (.rows [emptyPwdLogin, goodLogin 97]) none
          (fun _ => 1700000000) []
        = WebkitPassword.parse specUtils mockDecrypt (.rows [emptyPwdLogin, goodLogin 97]) none
          (fun _ => 1700000001) []
    ∧ (WebkitPassword.parse specUtils mockDecrypt (.rows [emptyPwdLogin, goodLogin 97]) none
          (fun _ => 1700000000) []).wp.map (fun l => l.CreateDate)
        = [specUtils.TimeStampFormat 1609459200, specUtils.TimeEpochFormat 13260000000000000] :=
  have hside : ∀ (i : Nat) (hi : i < [emptyPwdLogin, goodLogin 97].length),
      ((scanLogin [emptyPwdLogin, goodLogin 97][i]).create > (fun _ => 1700000000) i
        ↔ (scanLogin [emptyPwdLogin, goodLogin 97][i]).create > (fun _ => 1700000001) i) := by
    decide
  ⟨hside,
    (timestamp_conversion specUtils mockDecrypt none (fun _ => 1700000000)
      (fun _ => 1700000001) [emptyPwdLogin, goodLogin 97] [] [] [] [] [] [] [] typedTree []
      hside).1,
    rfl⟩

/-! ### The Gecko key chain -/

theorem bytesStartsWith_iff (sub : Bytes) :
    ∀ b : Bytes, bytesStartsWith b sub = true ↔ ∃ t, b = sub ++ t := by
  induction sub with
  | nil =>
    intro b
    cases b <;> simp [bytesStartsWith]
  | cons x xs ih =>
    intro b
    cases b with
    | nil => simp [bytesStartsWith]
    | cons y ys =>
      simp only [bytesStartsWith, Bool.and_eq_true, beq_iff_eq, ih ys, List.cons_append]
      constructor
      · rintro ⟨rfl, t, rfl⟩
        exact ⟨t, rfl⟩
      · rintro ⟨t, ht⟩
        injection ht with h1 h2
        exact ⟨h1, t, h2⟩

/-- The function `bytesContains` decides whether `sub` occurs in `b` as a
contiguous run, as Go `bytes.Contains` does. -/
theorem bytesContains_iff (sub : Bytes) :
    ∀ b : Bytes, bytesContains b sub = true ↔ ∃ s t, b = s ++ sub ++ t := by
  intro b
  induction b with
  | nil =>
    cases sub <;> simp [bytesContains]
  | cons y ys ih =>
    simp only [bytesContains, Bool.or_eq_true, bytesStartsWith_iff, ih]
    constructor
    · rintro (⟨t, ht⟩ | ⟨s, t, hst⟩)
      · exact ⟨[], t, by simpa using ht⟩
      · exact ⟨y :: s, t, by simp [hst]⟩
    · rintro ⟨s, t, hst⟩
      cases s with
      | nil => exact Or.inl ⟨t, by simpa using hst⟩
      | cons z s2 =>
        simp only [List.cons_append] at hst
        injection hst with _ h2
        exact Or.inr ⟨s2, t, h2⟩

/-- When the check string is present, the resolver goes on to stage 2: the
recorded operations are the two of stage 1 followed by those of stage 2. -/
theorem resolveGeckoMasterKey_with_check_string (c : PBE) (m : GeckoKeyMaterial)
    (password : Bytes) (metaPBE : c.Structure) (plain : Bytes)
    (hdecode : c.decode m.metaBytes = .ok metaPBE)
    (hdecrypt : c.decrypt metaPBE m.globalSalt password = .ok plain)
    (hcheck : bytesContains plain passwordCheck = true) :
    resolveGeckoMasterKey c m password =
      resolveStage2 c m password
        [ResolveEvent.decode Stage.one m.metaBytes,
         ResolveEvent.decrypt Stage.one m.globalSalt password] := by
  unfold resolveGeckoMasterKey
  simp only [hdecode, hdecrypt, hcheck]
  rfl

/-- C8: in the Gecko master-key chain, for every metadata item that decodes and
whose decrypted plaintext does not contain `"password-check"`, key resolution
fails with `MasterPasswordRequired`, and the second stage is never attempted:
the recorded operations are the two of stage 1 and none of them is a decoding
or decryption of `nssA11`. -/
theorem resolveGeckoMasterKey_without_check_string (c : PBE) (m : GeckoKeyMaterial)
    (password : Bytes) (metaPBE : c.Structure) (plain : Bytes)
    (hdecode : c.decode m.metaBytes = .ok metaPBE)
    (hdecrypt : c.decrypt metaPBE m.globalSalt password = .ok plain)
    (hcheck : bytesContains plain passwordCheck = false) :
    (resolveGeckoMasterKey c m password).result = .error ProfileLevelError.MasterPasswordRequired
    ∧ (resolveGeckoMasterKey c m password).trace
        = [ResolveEvent.decode Stage.one m.metaBytes,
           ResolveEvent.decrypt Stage.one m.globalSalt password]
    ∧ ((resolveGeckoMasterKey c m password).trace.filter ResolveEvent.isStage2).length = 0 := by
  have hrun : resolveGeckoMasterKey c m password =
      { result := .error ProfileLevelError.MasterPasswordRequired,
        trace := [ResolveEvent.decode Stage.one m.metaBytes,
                  ResolveEvent.decrypt Stage.one m.globalSalt password] } := by
    unfold resolveGeckoMasterKey
    simp only [hdecode, hdecrypt, hcheck]
    rfl
  rw [hrun]
  refine ⟨rfl, rfl, ?_⟩
  simp [ResolveEvent.isStage2]

/-- Witness of C8: a profile protected by a master password, resolved under the
empty password, fails with `MasterPasswordRequired` after the two operations of
stage 1; a profile without one reaches stage 2 (two invocations) and resolves
to a key of 24 bytes. -/
theorem resolveGeckoMasterKey_without_check_string_witness :
    (mockPBE.decode lockedProfile.metaBytes = .ok [48, 10, 0, 0]
      ∧ mockPBE.decrypt [48, 10, 0, 0] lockedProfile.globalSalt [] = .ok [10, 0, 0]
      ∧ bytesContains [10, 0, 0] passwordCheck = false)
    ∧ ((resolveGeckoMasterKey mockPBE lockedProfile []).result
          = .error ProfileLevelError.MasterPasswordRequired
      ∧ (resolveGeckoMasterKey mockPBE lockedProfile []).trace
          = [ResolveEvent.decode Stage.one lockedProfile.metaBytes,
             ResolveEvent.decrypt Stage.one lockedProfile.globalSalt []]
      ∧ ((resolveGeckoMasterKey mockPBE lockedProfile []).trace.filter
            ResolveEvent.isStage2).length = 0)
    ∧ (resolveGeckoMasterKey mockPBE openProfile []).result = .ok (List.replicate 24 7)
    ∧ ((resolveGeckoMasterKey mockPBE openProfile []).trace.filter
          ResolveEvent.isStage2).length = 2 :=
  ⟨⟨rfl, rfl, rfl⟩,
    resolveGeckoMasterKey_without_check_string mockPBE lockedProfile []
      ([48, 10, 0, 0] : Bytes) [10, 0, 0] rfl rfl rfl,
    rfl, rfl⟩

/-! ### WebkitBookmark.parse -/

theorem WebkitBookmark.forEach_visited (u : Utils) :
    ∀ (roots : List Result) (wb : List bookmark),
      WebkitBookmark.forEach u roots wb = wb ++ (visitedList roots).map (toBookmark u) := by
  intro roots
  induction roots with
  | nil => intro wb; simp [WebkitBookmark.forEach, visitedList]
  | cons value rest ih =>
    intro wb
    simp only [WebkitBookmark.forEach, visitedList]
    rw [ih, getBookmarkChildren_visited]
    simp [List.append_assoc]

/-- When the bookmark file is read and parsed, `WebkitBookmark.parse` returns
nil and appends the records of every root value in turn. -/
theorem WebkitBookmark.parse_visited (u : Utils) (gjsonParse : String → Parsed)
    (fileName bookmarks : String) (wb : List bookmark)
    (hread : u.ReadFile fileName = .ok bookmarks)
    (hexists : (gjsonParse bookmarks).Exists = true) :
    WebkitBookmark.parse u gjsonParse fileName wb =
      { wp := wb ++ (visitedList (gjsonParse bookmarks).roots).map (toBookmark u),
        ret := none, trace := [] } := by
  simp [WebkitBookmark.parse, hread, hexists, WebkitBookmark.forEach_visited]

/-! ### The concrete conversions -/

/-- The two examples of section 8 of the specification: 13260000000000000
microseconds after 1601 is 1615526400 seconds after 1970 (a day of March 2021), and
1609459200 seconds after 1970 is 2021-01-01T00:00:00Z. -/
theorem specUtils_examples :
    specUtils.TimeEpochFormat 13260000000000000 = ⟨1615526400 * 1000000000⟩
    ∧ specUtils.TimeStampFormat 1609459200 = ⟨1609459200 * 1000000000⟩ :=
  ⟨by decide, by decide⟩

end HackBrowserData
